import Mathlib

/-!
Verification development for the sudokle-app puzzle core
(`src/lib/board-generator.ts`, `src/lib/policy.ts`, `src/lib/rating.ts`,
`src/lib/human-solver.ts`, `src/lib/candidates.ts`).

The TypeScript code is shallowly embedded:
* a 9x9 grid of numbers is a function `Fin 9 → Fin 9 → ℕ`;
* in-place mutation with restoration (the solution counter) is modelled by
  threading the grid through the recursion and returning it, so that the
  restoration performed by the source before every `return` is a provable
  property of the embedding;
* the ambient `Math.random` shuffles are modelled, as the specification
  suggests, by arbitrary choice sequences: each call site of `shuffleArray`
  reads the outcome of that call from an oracle; a Fisher-Yates shuffle
  always produces (and can produce any) permutation of its input, so the
  oracle outcomes are quantified over permutations of the shuffled list.
-/

set_option maxRecDepth 4000
set_option linter.constructorNameAsVariable false
set_option linter.unusedVariables false

namespace Sudokle

abbrev Cell : Type := Fin 9 × Fin 9

abbrev Grid : Type := Fin 9 → Fin 9 → ℕ

/-- Functional update of one grid cell (the embedding of a single
`grid[row][col] = num` assignment). -/
def update (g : Grid) (r c : Fin 9) (v : ℕ) : Grid :=
  fun r2 c2 => if r2 = r ∧ c2 = c then v else g r2 c2

/-- All 81 cells in row-major order; this is the scan order of every loop
`for (row...) for (col...)` in the source. -/
def allCells : List Cell :=
  (List.finRange 9).flatMap fun r => (List.finRange 9).map fun c => (r, c)

/-- The digits 1..9 tried in ascending order by `countSolutionsRecursive`. -/
def digits : List ℕ := [1, 2, 3, 4, 5, 6, 7, 8, 9]

/-- Box index of a cell, from `getBox` in candidates.ts:
`Math.floor(row / 3) * 3 + Math.floor(col / 3)`. -/
def boxOf (r c : Fin 9) : ℕ := r.1 / 3 * 3 + c.1 / 3

/-- Cells of one box.  The source (`cellsInBox`) lists them in row-major
order, which agrees with filtering the row-major `allCells`. -/
def cellsInBox (b : ℕ) : List Cell :=
  allCells.filter fun p => boxOf p.1 p.2 == b

/-- Two cells share a row, a column or a box (the peer relation). -/
def sees (p q : Cell) : Prop :=
  p.1 = q.1 ∨ p.2 = q.2 ∨ boxOf p.1 p.2 = boxOf q.1 q.2

instance (p q : Cell) : Decidable (sees p q) := by
  unfold sees; infer_instance

/-- Embedding of `isValidForGrid` (also `isValid` on the implicit grid):
`num` occurs nowhere in the row, the column or the box of the cell. -/
def isValidForGrid (g : Grid) (r c : Fin 9) (num : ℕ) : Bool :=
  ((List.finRange 9).all fun x => g r x != num) &&
  ((List.finRange 9).all fun x => g x c != num) &&
  ((cellsInBox (boxOf r c)).all fun p => g p.1 p.2 != num)

/-- Embedding of `copyAnyGrid` (a deep copy of a `number[][]`). -/
def copyAnyGrid (g : Grid) : Grid := fun r c => g r c

/-- Embedding of `cloneGrid` from candidates.ts. -/
def cloneGrid (g : Grid) : Grid := fun r c => g r c

/-- The `for (num = 1..9)` loop body of `countSolutionsRecursive`: place a
valid digit, add the completions found by the recursive call (`deeper`, the
counter on the remaining cells) to the accumulator, return early (after
restoring the cell) once the accumulator reaches the cap, otherwise restore
the cell and continue with the next digit.  The grid is threaded because
the source mutates it in place. -/
def countTry (deeper : Grid → ℕ × Grid) (r c : Fin 9) (cap : ℕ) :
    List ℕ → Grid → ℕ → ℕ × Grid
  | [], g, acc => (acc, g)
  | n :: ns, g, acc =>
    if isValidForGrid g r c n then
      let res := deeper (update g r c n)
      let acc2 := acc + res.1
      if cap ≤ acc2 then (acc2, update res.2 r c 0)
      else countTry deeper r c cap ns (update res.2 r c 0) acc2
    else countTry deeper r c cap ns g acc

/-- Embedding of `countSolutionsRecursive`.  The `(row, col)` cursor walk
(`col === 9` advances the row, `row === 9` reports one solution) visits the
81 cells in row-major order; that walk is represented by the remaining
suffix `cells` of `allCells`.  A filled cell is skipped; at an empty cell
the digits 1..9 are tried in order with the early-exit cap. -/
def countRec : List Cell → ℕ → Grid → ℕ × Grid
  | [], _, g => (1, g)
  | (r, c) :: rest, cap, g =>
    if g r c ≠ 0 then countRec rest cap g
    else countTry (countRec rest cap) r c cap digits g 0

/-- Embedding of `countSolutions`: copy the caller's grid, then run the
recursive counter from the top-left cell. -/
def countSolutions (g : Grid) (cap : ℕ) : ℕ :=
  (countRec allCells cap (copyAnyGrid g)).1

/-- Embedding of `hasUniqueSolution`. -/
def hasUniqueSolution (g : Grid) : Bool :=
  countSolutions g 2 == 1

/-- Reference digit loop without cap and without grid threading: the sum
over the valid digits at the cell of the counts of the resulting grids. -/
def ecountTry (deeper : Grid → ℕ) (g : Grid) (r c : Fin 9) : List ℕ → ℕ
  | [] => 0
  | n :: ns =>
    (if isValidForGrid g r c n then deeper (update g r c n) else 0) +
      ecountTry deeper g r c ns

/-- Reference count of the same backtracking search without the cap. -/
def ecount : List Cell → Grid → ℕ
  | [], _ => 1
  | (r, c) :: rest, g =>
    if g r c ≠ 0 then ecount rest g
    else ecountTry (ecount rest) g r c digits

/-- A grid with no empty cell. -/
def gridFull (g : Grid) : Prop := ∀ r c : Fin 9, g r c ≠ 0

/-- No two distinct cells of the same row, column or box hold the same
nonzero value (the grid invariant of the data model). -/
def conflictFree (g : Grid) : Prop :=
  ∀ p q : Cell, p ≠ q → sees p q →
    g p.1 p.2 ≠ 0 → g q.1 q.2 ≠ 0 → g p.1 p.2 ≠ g q.1 q.2

/-- All entries are between 0 and 9. -/
def inRange (g : Grid) : Prop := ∀ r c : Fin 9, g r c ≤ 9

/-- A well-formed partial grid: entries 0..9, no peer conflicts. -/
def gridOK (g : Grid) : Prop := conflictFree g ∧ inRange g

/-- View a function into `Fin 9` as a full grid with entries 1..9. -/
def toG (f : Fin 9 → Fin 9 → Fin 9) : Grid := fun r c => (f r c).1 + 1

/-- `h` agrees with `g` on every given (nonzero) cell of `g`. -/
def gExtends (g h : Grid) : Prop := ∀ r c : Fin 9, g r c ≠ 0 → h r c = g r c

/-- `f` encodes a full, valid completion of the partial grid `g`. -/
def isCompletion (g : Grid) (f : Fin 9 → Fin 9 → Fin 9) : Prop :=
  gExtends g (toG f) ∧ conflictFree (toG f)

instance (g : Grid) : Decidable (gridFull g) := by
  unfold gridFull; infer_instance

instance (g : Grid) : Decidable (conflictFree g) := by
  unfold conflictFree; infer_instance

instance (g : Grid) : Decidable (inRange g) := by
  unfold inRange; infer_instance

instance (g : Grid) : Decidable (gridOK g) := by
  unfold gridOK; infer_instance

instance (g h : Grid) : Decidable (gExtends g h) := by
  unfold gExtends; infer_instance

instance (g : Grid) (f : Fin 9 → Fin 9 → Fin 9) : Decidable (isCompletion g f) := by
  unfold isCompletion; infer_instance

/-- The number of distinct full completions of a partial grid, as a plain
count over all assignments of digits 1..9 to the 81 cells. -/
def nCompletions (g : Grid) : ℕ :=
  (Finset.univ.filter fun f : Fin 9 → Fin 9 → Fin 9 => isCompletion g f).card

/-- Character-level embedding of `parseInt(ch) || 0` on a single character:
the ASCII digits `'1'..'9'` (codes 49..57) parse to their value, every
other character (including `'0'`, whose parse is falsy) yields 0. -/
def parseDigitChar (ch : Char) : ℕ :=
  if 49 ≤ ch.toNat ∧ ch.toNat ≤ 57 then ch.toNat - 48 else 0

/-- Embedding of `gridToString`: flatten in row-major order and print each
cell.  Cell values are always ≤ 9 in the source, where
`Number.prototype.toString` yields the single digit character. -/
def gridToString (g : Grid) : List Char :=
  allCells.map fun p => Nat.digitChar (g p.1 p.2)

/-- Embedding of `stringToGrid` from rating.ts: cell `(r, c)` is parsed
from character `9 * r + c`. -/
def stringToGrid (s : List Char) : Grid :=
  fun r c =>
    match s.get? (9 * r.1 + c.1) with
    | some ch => parseDigitChar ch
    | none => 0

/-- Embedding of `verifyPuzzleUniqueness`, whose inline string-to-grid
loop is character-for-character the loop of `stringToGrid`. -/
def verifyPuzzleUniqueness (s : List Char) : Bool × ℕ :=
  let grid : Grid := fun r c =>
    match s.get? (9 * r.1 + c.1) with
    | some ch => parseDigitChar ch
    | none => 0
  (countSolutions grid 3 == 1, countSolutions grid 3)


/-- Candidate store: an insertion-ordered association list mirroring the
source `Map<string, Set<number>>` (string keys "r,c" are in bijection with
cells; `Map` and `Set` iterate in insertion order, and sets are only ever
built ascending and shrunk, so ascending lists model them exactly). -/
abbrev Cands : Type := List (Cell × List ℕ)

/-- Embedding of `cellsInRow`. -/
def cellsInRow (r : Fin 9) : List Cell :=
  (List.finRange 9).map fun c => (r, c)

/-- Embedding of `cellsInCol`. -/
def cellsInCol (c : Fin 9) : List Cell :=
  (List.finRange 9).map fun r => (r, c)

/-- Embedding of `getAllUnits`: all rows, then all columns, then all
boxes. -/
def getAllUnits : List (List Cell) :=
  ((List.finRange 9).map cellsInRow) ++ ((List.finRange 9).map cellsInCol)
    ++ ((List.range 9).map cellsInBox)

/-- Embedding of `getPeers`: row peers, then column peers, then the box
peers not already recorded (the source dedups through a `Set` of keys). -/
def getPeers (r c : Fin 9) : List Cell :=
  let rowP := ((List.finRange 9).filter fun x => x ≠ c).map fun x => ((r, x) : Cell)
  let colP := ((List.finRange 9).filter fun x => x ≠ r).map fun x => ((x, c) : Cell)
  let boxP := (cellsInBox (boxOf r c)).filter fun p =>
    p ≠ (r, c) ∧ p ∉ rowP ∧ p ∉ colP
  rowP ++ colP ++ boxP

/-- Embedding of `eliminate`: remove one digit from one cell's candidate
set, reporting whether the cell had an entry; no entry means no change. -/
def eliminate (cands : Cands) (r c : Fin 9) (num : ℕ) : Bool × Cands :=
  match cands.lookup ((r, c) : Cell) with
  | some _ =>
    (true, cands.map fun e =>
      if e.1 = ((r, c) : Cell) then (e.1, e.2.filter fun d => d != num) else e)
  | none => (false, cands)

/-- Embedding of `place`: write the number into the grid, drop the cell's
candidate entry, and eliminate the number from every peer; always returns
`true` and performs no validity check. -/
def place (g : Grid) (cands : Cands) (r c : Fin 9) (num : ℕ) :
    Bool × Grid × Cands :=
  let g2 := update g r c num
  let cands2 := cands.filter fun e => !(e.1 == ((r, c) : Cell))
  let cands3 := (getPeers r c).foldl
    (fun cs p => (eliminate cs p.1 p.2 num).2) cands2
  (true, g2, cands3)

/-- The initial pass of `buildCandidates`: every empty cell starts with the
full candidate set 1..9, inserted in row-major order. -/
def initCands (g : Grid) : Cands :=
  allCells.filterMap fun p =>
    if g p.1 p.2 = 0 then some (p, digits) else none

/-- The elimination pass of `buildCandidates`, restricted to a list of cells:
each filled cell among them has its value eliminated from all of its peers. -/
def elimGivens (g : Grid) (cells : List Cell) (cs : Cands) : Cands :=
  cells.foldl
    (fun cs p =>
      if g p.1 p.2 ≠ 0 then
        (getPeers p.1 p.2).foldl
          (fun cs2 q => (eliminate cs2 q.1 q.2 (g p.1 p.2)).2) cs
      else cs)
    cs

/-- Embedding of `buildCandidates`: every empty cell starts with 1..9
(inserted in row-major order), then every filled cell's value is eliminated
from all of its peers. -/
def buildCandidates (g : Grid) : Cands :=
  elimGivens g allCells (initCands g)

/-- Embedding of `countEmptyCells`. -/
def countEmptyCells (g : Grid) : ℕ :=
  (allCells.filter fun p => g p.1 p.2 == 0).length


/-- Is there a candidate entry for this cell containing this digit
(`candidates.get(key)?.has(digit)`)? -/
def hasCand (cands : Cands) (p : Cell) (d : ℕ) : Bool :=
  match cands.lookup p with
  | some l => l.contains d
  | none => false

/-- First-occurrence deduplication, modelling insertion into a JS `Set`. -/
def firstDedup [BEq α] (l : List α) : List α :=
  l.foldl (fun acc x => if acc.contains x then acc else acc ++ [x]) []

/-- All ordered pairs (i, j) with i before j, as iterated by the nested
`for (i...) for (j = i + 1...)` loops of the source. -/
def orderedPairs : List α → List (α × α)
  | [] => []
  | x :: xs => (xs.map fun y => (x, y)) ++ orderedPairs xs

/-- All ordered triples, as iterated by triple-nested index loops. -/
def orderedTriples : List α → List (α × α × α)
  | [] => []
  | x :: xs => ((orderedPairs xs).map fun e => (x, e.1, e.2)) ++ orderedTriples xs

/-- The nine techniques of the human solver. -/
inductive Technique where
  | NakedSingle
  | HiddenSingle
  | LockedCandidate
  | NakedPair
  | HiddenPair
  | NakedTriple
  | HiddenTriple
  | XWing
  | XYWing
deriving DecidableEq

/-- Embedding of TECHNIQUE_ORDER from human-solver.ts. -/
def techOrder : Technique → ℕ
  | .NakedSingle => 1
  | .HiddenSingle => 2
  | .LockedCandidate => 3
  | .NakedPair => 4
  | .HiddenPair => 5
  | .NakedTriple => 6
  | .HiddenTriple => 7
  | .XWing => 8
  | .XYWing => 9

/-- Embedding of `isHarderThan` (null-aware comparison of techniques). -/
def isHarderThan (a b : Option Technique) : Bool :=
  match b with
  | none => true
  | some tb =>
    match a with
    | none => false
    | some ta => techOrder tb < techOrder ta

/-- The rank of an optional hardest technique: 0 for none, else its
position in TECHNIQUE_ORDER.  `isHarderThan (some a) h` holds exactly when
`hOrd h < techOrder a`, so `hOrd` linearises the solver's difficulty
order. -/
def hOrd : Option Technique → ℕ
  | none => 0
  | some t => techOrder t

/-- The techniques in the order the solve loop tries them. -/
def techList : List Technique :=
  [.NakedSingle, .HiddenSingle, .LockedCandidate, .NakedPair, .HiddenPair,
   .NakedTriple, .HiddenTriple, .XWing, .XYWing]

/-- Embedding of `findNakedSingles`: candidate entries of size one, in
store (row-major insertion) order. -/
def findNakedSingles (g : Grid) (cands : Cands) : List (Cell × ℕ) :=
  cands.filterMap fun e =>
    match e.2 with
    | [n] => some (e.1, n)
    | _ => none

/-- Embedding of `findHiddenSingles`: per unit and digit, the unique empty
cell of the unit whose candidates contain the digit, if any. -/
def findHiddenSingles (g : Grid) (cands : Cands) : List (Cell × ℕ) :=
  getAllUnits.flatMap fun unit =>
    digits.filterMap fun d =>
      match unit.filter fun p => g p.1 p.2 == 0 && hasCand cands p d with
      | [p] => some (p, d)
      | _ => none

/-- Embedding of `findLockedCandidates`: box pointing (rows, then
columns), then row claiming, then column claiming. -/
def findLockedCandidates (g : Grid) (cands : Cands) : List (Cell × ℕ) :=
  let pointing := (List.range 9).flatMap fun b =>
    digits.flatMap fun d =>
      let cw := (cellsInBox b).filter fun p => g p.1 p.2 == 0 && hasCand cands p d
      if 1 < cw.length then
        let rowPart :=
          match firstDedup (cw.map fun p => p.1) with
          | [row] =>
            ((List.finRange 9).filter fun col =>
              (boxOf row col != b) && hasCand cands (row, col) d).map
                fun col => (((row, col) : Cell), d)
          | _ => []
        let colPart :=
          match firstDedup (cw.map fun p => p.2) with
          | [col] =>
            ((List.finRange 9).filter fun row =>
              (boxOf row col != b) && hasCand cands (row, col) d).map
                fun row => (((row, col) : Cell), d)
          | _ => []
        rowPart ++ colPart
      else []
  let claimRows := (List.finRange 9).flatMap fun row =>
    digits.flatMap fun d =>
      let cw := (List.finRange 9).filter fun col =>
        g row col == 0 && hasCand cands (row, col) d
      if 1 < cw.length then
        match firstDedup (cw.map fun col => boxOf row col) with
        | [b] =>
          ((cellsInBox b).filter fun p => (p.1 != row) && hasCand cands p d).map
            fun p => (p, d)
        | _ => []
      else []
  let claimCols := (List.finRange 9).flatMap fun col =>
    digits.flatMap fun d =>
      let cw := (List.finRange 9).filter fun row =>
        g row col == 0 && hasCand cands (row, col) d
      if 1 < cw.length then
        match firstDedup (cw.map fun row => boxOf row col) with
        | [b] =>
          ((cellsInBox b).filter fun p => (p.2 != col) && hasCand cands p d).map
            fun p => (p, d)
        | _ => []
      else []
  pointing ++ claimRows ++ claimCols

/-- Embedding of `findNakedPairs`. -/
def findNakedPairs (cands : Cands) : List (Cell × ℕ) :=
  getAllUnits.flatMap fun unit =>
    let pairCells := unit.filter fun p =>
      match cands.lookup p with
      | some l => l.length == 2
      | none => false
    (orderedPairs pairCells).flatMap fun e =>
      match cands.lookup e.1, cands.lookup e.2 with
      | some l1, some l2 =>
        if l1.length == 2 && l1 == l2 then
          match l1 with
          | [d1, d2] =>
            unit.flatMap fun cell =>
              if cell != e.1 && cell != e.2 then
                match cands.lookup cell with
                | some lc =>
                  (if lc.contains d1 then [(cell, d1)] else []) ++
                    (if lc.contains d2 then [(cell, d2)] else [])
                | none => []
              else []
          | _ => []
        else []
      | _, _ => []

/-- Embedding of `findHiddenPairs`. -/
def findHiddenPairs (cands : Cands) : List (Cell × ℕ) :=
  getAllUnits.flatMap fun unit =>
    (orderedPairs digits).flatMap fun dd =>
      let cw1 := unit.filter fun p => hasCand cands p dd.1
      let cw2 := unit.filter fun p => hasCand cands p dd.2
      if cw1.length == 2 && cw2.length == 2 && cw1 == cw2 then
        cw1.flatMap fun p =>
          match cands.lookup p with
          | some l =>
            (l.filter fun d => d != dd.1 && d != dd.2).map fun d => (p, d)
          | none => []
      else []

/-- Embedding of `findNakedTriples`. -/
def findNakedTriples (cands : Cands) : List (Cell × ℕ) :=
  getAllUnits.flatMap fun unit =>
    let tc := unit.filter fun p =>
      match cands.lookup p with
      | some l => l.length == 2 || l.length == 3
      | none => false
    (orderedTriples tc).flatMap fun e =>
      match cands.lookup e.1, cands.lookup e.2.1, cands.lookup e.2.2 with
      | some l1, some l2, some l3 =>
        let combined := firstDedup (l1 ++ l2 ++ l3)
        if combined.length == 3 then
          unit.flatMap fun cell =>
            if cell != e.1 && cell != e.2.1 && cell != e.2.2 then
              match cands.lookup cell with
              | some lc =>
                combined.filterMap fun d =>
                  if lc.contains d then some (cell, d) else none
              | none => []
            else []
        else []
      | _, _, _ => []

/-- Embedding of `findHiddenTriples` (the subset re-check of the source,
though implied by the union construction, is mirrored). -/
def findHiddenTriples (cands : Cands) : List (Cell × ℕ) :=
  getAllUnits.flatMap fun unit =>
    (orderedTriples digits).flatMap fun dd =>
      let cw1 := unit.filter fun p => hasCand cands p dd.1
      let cw2 := unit.filter fun p => hasCand cands p dd.2.1
      let cw3 := unit.filter fun p => hasCand cands p dd.2.2
      let all3 := firstDedup (cw1 ++ cw2 ++ cw3)
      if all3.length == 3 && 2 ≤ cw1.length && 2 ≤ cw2.length
          && 2 ≤ cw3.length then
        if (cw1 ++ cw2 ++ cw3).all fun p => all3.contains p then
          all3.flatMap fun p =>
            match cands.lookup p with
            | some l =>
              (l.filter fun d =>
                d != dd.1 && d != dd.2.1 && d != dd.2.2).map fun d => (p, d)
            | none => []
        else []
      else []

/-- Embedding of `findXWing`: row-based then column-based patterns. -/
def findXWing (cands : Cands) : List (Cell × ℕ) :=
  digits.flatMap fun d =>
    let rowsWithTwo := (List.finRange 9).filterMap fun row =>
      let cols := (List.finRange 9).filter fun col => hasCand cands (row, col) d
      if cols.length == 2 then some (row, cols) else none
    let rowPart := (orderedPairs rowsWithTwo).flatMap fun e =>
      if e.1.2 == e.2.2 then
        (List.finRange 9).flatMap fun row =>
          if row != e.1.1 && row != e.2.1 then
            e.1.2.filterMap fun col =>
              if hasCand cands (row, col) d then some (((row, col) : Cell), d)
              else none
          else []
      else []
    let colsWithTwo := (List.finRange 9).filterMap fun col =>
      let rows := (List.finRange 9).filter fun row => hasCand cands (row, col) d
      if rows.length == 2 then some (col, rows) else none
    let colPart := (orderedPairs colsWithTwo).flatMap fun e =>
      if e.1.2 == e.2.2 then
        (List.finRange 9).flatMap fun col =>
          if col != e.1.1 && col != e.2.1 then
            e.1.2.filterMap fun row =>
              if hasCand cands (row, col) d then some (((row, col) : Cell), d)
              else none
          else []
      else []
    rowPart ++ colPart

/-- Embedding of `findXYWing`. -/
def findXYWing (cands : Cands) : List (Cell × ℕ) :=
  let biValue := cands.filterMap fun e =>
    match e.2 with
    | [a, b] => some (e.1, ([a, b] : List ℕ))
    | _ => none
  biValue.flatMap fun pivot =>
    let wings := biValue.filter fun w =>
      (w.1 != pivot.1) &&
      (w.1.1 == pivot.1.1 || w.1.2 == pivot.1.2 ||
        boxOf w.1.1 w.1.2 == boxOf pivot.1.1 pivot.1.2) &&
      ((w.2.filter fun x => pivot.2.contains x).length == 1)
    (orderedPairs wings).flatMap fun ww =>
      match ww.1.2.find? fun x => !(pivot.2.contains x),
          ww.2.2.find? fun x => !(pivot.2.contains x) with
      | some z1, some z2 =>
        if z1 == z2 then
          cands.flatMap fun e =>
            if e.2.contains z1 then
              let p := e.1
              let sees1 := p.1 == ww.1.1.1 || p.2 == ww.1.1.2 ||
                boxOf p.1 p.2 == boxOf ww.1.1.1 ww.1.1.2
              let sees2 := p.1 == ww.2.1.1 || p.2 == ww.2.1.2 ||
                boxOf p.1 p.2 == boxOf ww.2.1.1 ww.2.1.2
              if sees1 && sees2 && !(p == ww.1.1) && !(p == ww.2.1) then
                [(p, z1)]
              else []
            else []
        else []
      | _, _ => []

/-- Per-technique usage counters (the `counts` record of a SolveReport,
whose keys are created in technique order). -/
structure Counts where
  nakedSingle : ℕ
  hiddenSingle : ℕ
  lockedCandidate : ℕ
  nakedPair : ℕ
  hiddenPair : ℕ
  nakedTriple : ℕ
  hiddenTriple : ℕ
  xWing : ℕ
  xyWing : ℕ
deriving DecidableEq

/-- The all-zero counters. -/
def zeroCounts : Counts := ⟨0, 0, 0, 0, 0, 0, 0, 0, 0⟩

/-- Read one counter. -/
def Counts.get (cs : Counts) : Technique → ℕ
  | .NakedSingle => cs.nakedSingle
  | .HiddenSingle => cs.hiddenSingle
  | .LockedCandidate => cs.lockedCandidate
  | .NakedPair => cs.nakedPair
  | .HiddenPair => cs.hiddenPair
  | .NakedTriple => cs.nakedTriple
  | .HiddenTriple => cs.hiddenTriple
  | .XWing => cs.xWing
  | .XYWing => cs.xyWing

/-- Increment one counter. -/
def Counts.inc (cs : Counts) : Technique → Counts
  | .NakedSingle => { cs with nakedSingle := cs.nakedSingle + 1 }
  | .HiddenSingle => { cs with hiddenSingle := cs.hiddenSingle + 1 }
  | .LockedCandidate => { cs with lockedCandidate := cs.lockedCandidate + 1 }
  | .NakedPair => { cs with nakedPair := cs.nakedPair + 1 }
  | .HiddenPair => { cs with hiddenPair := cs.hiddenPair + 1 }
  | .NakedTriple => { cs with nakedTriple := cs.nakedTriple + 1 }
  | .HiddenTriple => { cs with hiddenTriple := cs.hiddenTriple + 1 }
  | .XWing => { cs with xWing := cs.xWing + 1 }
  | .XYWing => { cs with xyWing := cs.xyWing + 1 }

/-- The mutable state of the solve loop. -/
structure SolveState where
  grid : Grid
  cands : Cands
  counts : Counts
  hardest : Option Technique
  steps : ℕ

instance : DecidableEq SolveState := fun a b =>
  decidable_of_iff
    (a.grid = b.grid ∧ a.cands = b.cands ∧ a.counts = b.counts ∧
      a.hardest = b.hardest ∧ a.steps = b.steps)
    (by cases a; cases b; simp)

/-- The findings of one technique on the current state. -/
def techFind (t : Technique) (g : Grid) (cands : Cands) : List (Cell × ℕ) :=
  match t with
  | .NakedSingle => findNakedSingles g cands
  | .HiddenSingle => findHiddenSingles g cands
  | .LockedCandidate => findLockedCandidates g cands
  | .NakedPair => findNakedPairs cands
  | .HiddenPair => findHiddenPairs cands
  | .NakedTriple => findNakedTriples cands
  | .HiddenTriple => findHiddenTriples cands
  | .XWing => findXWing cands
  | .XYWing => findXYWing cands

/-- The two placement techniques mutate the grid through `place`; all
others only eliminate candidates. -/
def isPlacement (t : Technique) : Bool :=
  match t with
  | .NakedSingle => true
  | .HiddenSingle => true
  | _ => false

/-- Apply one finding: place or eliminate, bump the counter and the step
count, and raise the hardest technique if needed (the loop body applied to
each reported finding). -/
def applyOne (t : Technique) (st : SolveState) (f : Cell × ℕ) : SolveState :=
  let st2 :=
    if isPlacement t then
      let res := place st.grid st.cands f.1.1 f.1.2 f.2
      { st with grid := res.2.1, cands := res.2.2 }
    else
      { st with cands := (eliminate st.cands f.1.1 f.1.2 f.2).2 }
  { st2 with
    counts := st2.counts.inc t,
    steps := st2.steps + 1,
    hardest := if isHarderThan (some t) st2.hardest then some t else st2.hardest }

/-- One pass of the solve loop over the technique blocks in order: the
first allowed technique with findings applies all of them and restarts the
loop (`continue`); if no block fires the pass reports no progress. -/
def stepGo (maxOrd : ℕ) (st : SolveState) : List Technique → Option SolveState
  | [] => none
  | t :: ts =>
    if techOrder t ≤ maxOrd then
      let fs := techFind t st.grid st.cands
      if fs.isEmpty then stepGo maxOrd st ts
      else some (fs.foldl (applyOne t) st)
    else stepGo maxOrd st ts

/-- The `while (progress && countEmptyCells(grid) > 0)` loop.  The fuel
bounds the number of iterations; each progressing iteration either fills an
empty cell or deletes at least one present candidate (every push in every
find function is guarded by a membership check on the current store), so
81 + 9 * 81 + 1 < 1000 iterations always reach the no-progress fixpoint. -/
def solveLoop (maxOrd : ℕ) : ℕ → SolveState → SolveState
  | 0, st => st
  | fuel + 1, st =>
    if countEmptyCells st.grid = 0 then st
    else
      match stepGo maxOrd st techList with
      | none => st
      | some st2 => solveLoop maxOrd fuel st2

/-- The report returned by the human solver. -/
structure SolveReport where
  solved : Bool
  steps : ℕ
  hardest : Option Technique
  counts : Counts
  initialSingles : ℕ
deriving DecidableEq

/-- Embedding of `solveHuman`: clone the grid, build the candidate store,
record the initial naked and hidden singles, then run the technique loop
under the optional cap (999 meaning no cap, as in the source). -/
def solveHuman (initialGrid : Grid) (maxTechnique : Option Technique) :
    SolveReport :=
  let grid := cloneGrid initialGrid
  let cands := buildCandidates grid
  let initialSingles :=
    (findNakedSingles grid cands).length + (findHiddenSingles grid cands).length
  let maxOrd :=
    match maxTechnique with
    | some t => techOrder t
    | none => 999
  let fin := solveLoop maxOrd 1000 ⟨grid, cands, zeroCounts, none, 0⟩
  ⟨countEmptyCells fin.grid == 0, fin.steps, fin.hardest, fin.counts,
    initialSingles⟩

/-- The four difficulty bands. -/
inductive Difficulty where
  | Easy
  | Medium
  | Hard
  | Expert
deriving DecidableEq

/-- Embedding of TECHNIQUE_WEIGHTS from rating.ts. -/
def techWeight : Technique → ℕ
  | .NakedSingle => 1
  | .HiddenSingle => 1
  | .LockedCandidate => 2
  | .NakedPair => 3
  | .HiddenPair => 3
  | .NakedTriple => 4
  | .HiddenTriple => 4
  | .XWing => 5
  | .XYWing => 6

/-- The weights the specification ascribes to the techniques: 1 (easiest)
through 9 (hardest) along the technique enumeration in ascending order.
This definition follows the specification's words, for comparison with
`techWeight`, which is translated from TECHNIQUE_WEIGHTS in the source. -/
def specWeight : Technique → ℕ
  | .NakedSingle => 1
  | .HiddenSingle => 2
  | .LockedCandidate => 3
  | .NakedPair => 4
  | .HiddenPair => 5
  | .NakedTriple => 6
  | .HiddenTriple => 7
  | .XWing => 8
  | .XYWing => 9

/-- Embedding of TECHNIQUE_TO_BAND from rating.ts. -/
def techBand : Technique → Difficulty
  | .NakedSingle => .Easy
  | .HiddenSingle => .Easy
  | .LockedCandidate => .Medium
  | .NakedPair => .Medium
  | .HiddenPair => .Hard
  | .NakedTriple => .Hard
  | .HiddenTriple => .Hard
  | .XWing => .Expert
  | .XYWing => .Expert

/-- A difficulty rating. -/
structure Rating where
  band : Difficulty
  score : ℕ
  hardest : Option Technique
deriving DecidableEq

/-- Embedding of `toRating`: the weighted sum over the counts record in
its key order, and the band of the hardest technique (Easy when none). -/
def toRating (report : SolveReport) : Rating :=
  let score := techList.foldl
    (fun s t => s + techWeight t * report.counts.get t) 0
  let band :=
    match report.hardest with
    | some t => techBand t
    | none => Difficulty.Easy
  ⟨band, score, report.hardest⟩

/-- Embedding of `ratePuzzle`. -/
def ratePuzzle (g : Grid) : Rating := toRating (solveHuman g none)

/-- Position of a band in the fixed order Easy, Medium, Hard, Expert. -/
def bandIndex : Difficulty → ℕ
  | .Easy => 0
  | .Medium => 1
  | .Hard => 2
  | .Expert => 3

/-- Embedding of `isWithinBand`. -/
def isWithinBand (rating : Rating) (target : Difficulty) : Bool :=
  decide (bandIndex rating.band ≤ bandIndex target)

/-- Embedding of `techniqueCapFor`. -/
def techniqueCapFor : Difficulty → Technique
  | .Easy => .HiddenSingle
  | .Medium => .NakedPair
  | .Hard => .HiddenTriple
  | .Expert => .XYWing

/-- Embedding of DifficultyPolicy from policy.ts. -/
structure DifficultyPolicy where
  maxTechnique : Technique
  minInitialSingles : ℕ
  minBoxGivens : ℕ
  minLineGivens : ℕ

/-- Embedding of DIFFICULTY_POLICY / `getPolicyFor`. -/
def getPolicyFor : Difficulty → DifficultyPolicy
  | .Easy => ⟨.HiddenSingle, 8, 1, 1⟩
  | .Medium => ⟨.NakedPair, 4, 1, 1⟩
  | .Hard => ⟨.HiddenTriple, 2, 1, 0⟩
  | .Expert => ⟨.XYWing, 0, 0, 0⟩

/-- Embedding of `meetsDistributionGuards`: minimum givens per box, then
per row, then per column. -/
def meetsDistributionGuards (g : Grid) (policy : DifficultyPolicy) : Bool :=
  ((List.range 9).all fun b =>
    decide (policy.minBoxGivens ≤
      ((cellsInBox b).filter fun p => g p.1 p.2 != 0).length)) &&
  ((List.finRange 9).all fun r =>
    decide (policy.minLineGivens ≤
      ((List.finRange 9).filter fun c => g r c != 0).length)) &&
  ((List.finRange 9).all fun c =>
    decide (policy.minLineGivens ≤
      ((List.finRange 9).filter fun r => g r c != 0).length))

/-- The row-major scan at the top of `fillGrid`: the first empty cell, if
any (the source's nested `for` loops re-scan from (0,0) on every call). -/
def firstEmpty (g : Grid) : Option Cell :=
  allCells.find? fun p => g p.1 p.2 == 0

/-- The `for (const num of numbers)` loop of `fillGrid`: try each number
of the shuffled list at cell (r, c).  `deeper` is the recursive call on
the updated grid; it threads the shuffle counter and, like the source,
returns with the grid restored to its entry state on failure (in the
persistent embedding the caller simply keeps using `g`). -/
def fillTry (deeper : ℕ → Grid → Option Grid × ℕ) (r c : Fin 9) :
    List ℕ → ℕ → Grid → Option Grid × ℕ
  | [], k, _ => (none, k)
  | n :: ns, k, g =>
    if isValidForGrid g r c n then
      match deeper k (update g r c n) with
      | (some g2, k2) => (some g2, k2)
      | (none, k2) => fillTry deeper r c ns k2 g
    else fillTry deeper r c ns k g

/-- Embedding of `fillGrid`.  `numShuf j` is the outcome of the j-th
`shuffleArray([1..9])` call (the ambient randomness as an arbitrary choice
sequence).  The source recursion deepens by one per filled cell, so its
depth is bounded by the number of empty cells plus one; the fuel (82 from
an empty grid) therefore never binds. -/
def fillRec (numShuf : ℕ → List ℕ) : ℕ → ℕ → Grid → Option Grid × ℕ
  | 0, k, _ => (none, k)
  | fuel + 1, k, g =>
    match firstEmpty g with
    | none => (some g, k)
    | some (r, c) => fillTry (fillRec numShuf fuel) r c (numShuf k) (k + 1) g

/-- The generator's reset state: an all-zero grid. -/
def emptyGrid : Grid := fun _ _ => 0

/-- The number of empty cells, as a set cardinality (the termination
measure of the backtracking fill: each recursive call of `fillGrid` is on
a grid with one empty cell fewer). -/
def emptyCount (g : Grid) : ℕ :=
  ((Finset.univ : Finset Cell).filter fun p => g p.1 p.2 = 0).card

/-- One position of the removal loop of `removeCells`.  The state is
(attempt grid, removed count, attempts count).  The attempts guard, the
empty-cell skip, and the five checks are as in the source; any failed
check reverts the tentative clearing (the persistent embedding keeps the
previous grid). -/
def rcStep (cap : Technique) (policy : DifficultyPolicy) (diff : Difficulty)
    (st : Grid × ℕ × ℕ) (pos : Cell) : Grid × ℕ × ℕ :=
  let g := st.1
  let removed := st.2.1
  let attempts := st.2.2
  if 150 ≤ attempts then st
  else
    let attempts2 := attempts + 1
    if g pos.1 pos.2 = 0 then (g, removed, attempts2)
    else
      let g2 := update g pos.1 pos.2 0
      if !hasUniqueSolution g2 then (g, removed, attempts2)
      else if decide (10 < removed) && !meetsDistributionGuards g2 policy then
        (g, removed, attempts2)
      else
        let report := solveHuman g2 (some cap)
        if !report.solved then (g, removed, attempts2)
        else if decide (20 < removed) &&
            decide (report.initialSingles < policy.minInitialSingles) then
          (g, removed, attempts2)
        else if !isWithinBand (toRating report) diff then (g, removed, attempts2)
        else (g2, removed + 1, attempts2)

/-- The best attempt kept across retries of `removeCells`. -/
structure Best where
  grid : Grid
  removed : ℕ
  rating : Option Rating

/-- The retry loop of `removeCells`: each retry folds `rcStep` over this
retry's shuffled positions (`posShuf retry`), starting from a fresh copy
of the solution grid, re-rates the attempt without a cap, updates the best
attempt, and stops early on an exact band match with at least 20 removals
and intact distribution guards. -/
def rcRetry (cap : Technique) (policy : DifficultyPolicy) (diff : Difficulty)
    (posShuf : ℕ → List Cell) (solution : Grid) :
    ℕ → ℕ → Best → Best
  | 0, _, best => best
  | fuel + 1, retry, best =>
    let res := (posShuf retry).foldl (rcStep cap policy diff)
      (copyAnyGrid solution, 0, 0)
    let attemptGrid := res.1
    let removed := res.2.1
    let finalRating := toRating (solveHuman attemptGrid none)
    let isExactBand := finalRating.band == diff
    let prevExactBand :=
      match best.rating with
      | some rt => rt.band == diff
      | none => false
    let isBetterThanBest := (isExactBand && !prevExactBand) ||
      ((isExactBand == prevExactBand) && decide (best.removed < removed))
    let best2 :=
      if isBetterThanBest || best.removed == 0 then
        (⟨attemptGrid, removed, some finalRating⟩ : Best)
      else best
    if isExactBand && decide (20 ≤ removed) &&
        meetsDistributionGuards attemptGrid policy then best2
    else rcRetry cap policy diff posShuf solution fuel (retry + 1) best2

/-- Embedding of `removeCells`: 8 retries for Hard and Expert, 5
otherwise; the initial best is a copy of the full solution grid with 0
cells removed and no rating. -/
def removeCells (diff : Difficulty) (posShuf : ℕ → List Cell)
    (solution : Grid) : Grid :=
  let policy := getPolicyFor diff
  let cap := techniqueCapFor diff
  let maxRetries : ℕ :=
    match diff with
    | .Expert => 8
    | .Hard => 8
    | _ => 5
  (rcRetry cap policy diff posShuf solution maxRetries 0
    ⟨copyAnyGrid (copyAnyGrid solution), 0, none⟩).grid

/-- The value returned by `generatePuzzle`. -/
structure Puzzle where
  board : List Char
  solution : List Char
  difficulty : Difficulty

/-- The board post-processing `board.replace(/0/g, "0")`: each '0' is
replaced by '0' (an identity, kept for faithfulness). -/
def keepZeros (s : List Char) : List Char :=
  s.map fun ch => if ch = Char.ofNat 48 then Char.ofNat 48 else ch

/-- Embedding of `generatePuzzle`: reset the grid, fill it, stringify the
solution, remove cells, stringify the board.  The source ignores
`fillGrid`'s boolean result; had the fill failed it would proceed with the
restored all-zero grid, which `Option.getD emptyGrid` mirrors. -/
def generatePuzzle (diff : Difficulty) (numShuf : ℕ → List ℕ)
    (posShuf : ℕ → List Cell) : Puzzle :=
  let filled := ((fillRec numShuf 82 0 emptyGrid).1).getD emptyGrid
  let solution := gridToString filled
  let puzzleGrid := removeCells diff posShuf filled
  let board := gridToString puzzleGrid
  ⟨keepZeros board, solution, diff⟩

/-- The invariant the removal loop maintains on its attempt grid (and so
on every best-so-far grid): unique completion, solvable under the
technique cap, entries 0..9, and a subgrid of the solution grid. -/
def rcInv (cap : Technique) (sol : Grid) (g : Grid) : Prop :=
  countSolutions g 2 = 1 ∧ (solveHuman g (some cap)).solved = true ∧
  inRange g ∧ ∀ r c : Fin 9, g r c = 0 ∨ g r c = sol r c

/-- Build a grid from a row-major list of rows (for concrete test grids). -/
def mkGrid (l : List (List ℕ)) : Grid :=
  fun r c => (l.getD r.1 []).getD c.1 0

/-- A fixed complete valid grid, used as a concrete input. -/
def gBase : Grid := mkGrid
  [[1, 2, 3, 4, 5, 6, 7, 8, 9],
   [4, 5, 6, 7, 8, 9, 1, 2, 3],
   [7, 8, 9, 1, 2, 3, 4, 5, 6],
   [2, 3, 1, 5, 6, 4, 8, 9, 7],
   [5, 6, 4, 8, 9, 7, 2, 3, 1],
   [8, 9, 7, 2, 3, 1, 5, 6, 4],
   [3, 1, 2, 6, 4, 5, 9, 7, 8],
   [6, 4, 5, 9, 7, 8, 3, 1, 2],
   [9, 7, 8, 3, 1, 2, 6, 4, 5]]

/-- `gBase` with eight cells cleared; the capped counter overshoots its cap
on this grid (cap 2, four completions, returned value 3). -/
def gOver : Grid := mkGrid
  [[1, 0, 3, 4, 0, 6, 7, 0, 9],
   [4, 0, 6, 7, 0, 9, 1, 0, 3],
   [7, 0, 9, 1, 0, 3, 4, 5, 6],
   [2, 3, 1, 5, 6, 4, 8, 9, 7],
   [5, 6, 4, 8, 9, 7, 2, 3, 1],
   [8, 9, 7, 2, 3, 1, 5, 6, 4],
   [3, 1, 2, 6, 4, 5, 9, 7, 8],
   [6, 4, 5, 9, 7, 8, 3, 1, 2],
   [9, 7, 8, 3, 1, 2, 6, 4, 5]]

/-- `gBase` with the top-left cell overwritten by 2: a full grid violating
the row constraint, hence without any valid completion. -/
def gFullBad : Grid := mkGrid
  [[2, 2, 3, 4, 5, 6, 7, 8, 9],
   [4, 5, 6, 7, 8, 9, 1, 2, 3],
   [7, 8, 9, 1, 2, 3, 4, 5, 6],
   [2, 3, 1, 5, 6, 4, 8, 9, 7],
   [5, 6, 4, 8, 9, 7, 2, 3, 1],
   [8, 9, 7, 2, 3, 1, 5, 6, 4],
   [3, 1, 2, 6, 4, 5, 9, 7, 8],
   [6, 4, 5, 9, 7, 8, 3, 1, 2],
   [9, 7, 8, 3, 1, 2, 6, 4, 5]]

/-- `gBase` with the top-left cell cleared: a uniquely completable grid. -/
def gW : Grid := mkGrid
  [[0, 2, 3, 4, 5, 6, 7, 8, 9],
   [4, 5, 6, 7, 8, 9, 1, 2, 3],
   [7, 8, 9, 1, 2, 3, 4, 5, 6],
   [2, 3, 1, 5, 6, 4, 8, 9, 7],
   [5, 6, 4, 8, 9, 7, 2, 3, 1],
   [8, 9, 7, 2, 3, 1, 5, 6, 4],
   [3, 1, 2, 6, 4, 5, 9, 7, 8],
   [6, 4, 5, 9, 7, 8, 3, 1, 2],
   [9, 7, 8, 3, 1, 2, 6, 4, 5]]

/-- `gBase` as a `Fin 9`-valued assignment: a completion witness for the
empty grid (and for any subgrid of `gBase`). -/
def fBase : Fin 9 → Fin 9 → Fin 9 :=
  fun r c => ⟨(gBase r c - 1) % 9, Nat.mod_lt _ (by omega)⟩

/-- A concrete puzzle grid on which the solve loop behaves differently
under the HiddenSingle cap and under the LockedCandidate cap: the higher
cap fires LockedCandidate eliminations and reports a strictly harder
hardest technique. -/
def gC6 : Grid := mkGrid
  [[2, 5, 0, 7, 6, 1, 0, 4, 8],
   [4, 1, 8, 0, 0, 9, 0, 3, 6],
   [9, 6, 7, 8, 3, 4, 1, 2, 5],
   [6, 0, 9, 1, 8, 7, 2, 5, 3],
   [7, 3, 5, 0, 0, 0, 8, 0, 9],
   [1, 8, 2, 0, 0, 3, 0, 0, 4],
   [8, 0, 1, 0, 0, 0, 3, 6, 0],
   [5, 0, 0, 3, 1, 8, 4, 9, 0],
   [0, 9, 4, 0, 7, 0, 0, 8, 1]]

/-- The candidate store of `gC6` after the initial 1..9 pass. -/
def c6i : Cands :=
  [(((0 : Fin 9), (2 : Fin 9)), [1, 2, 3, 4, 5, 6, 7, 8, 9]),
   (((0 : Fin 9), (6 : Fin 9)), [1, 2, 3, 4, 5, 6, 7, 8, 9]),
   (((1 : Fin 9), (3 : Fin 9)), [1, 2, 3, 4, 5, 6, 7, 8, 9]),
   (((1 : Fin 9), (4 : Fin 9)), [1, 2, 3, 4, 5, 6, 7, 8, 9]),
   (((1 : Fin 9), (6 : Fin 9)), [1, 2, 3, 4, 5, 6, 7, 8, 9]),
   (((3 : Fin 9), (1 : Fin 9)), [1, 2, 3, 4, 5, 6, 7, 8, 9]),
   (((4 : Fin 9), (3 : Fin 9)), [1, 2, 3, 4, 5, 6, 7, 8, 9]),
   (((4 : Fin 9), (4 : Fin 9)), [1, 2, 3, 4, 5, 6, 7, 8, 9]),
   (((4 : Fin 9), (5 : Fin 9)), [1, 2, 3, 4, 5, 6, 7, 8, 9]),
   (((4 : Fin 9), (7 : Fin 9)), [1, 2, 3, 4, 5, 6, 7, 8, 9]),
   (((5 : Fin 9), (3 : Fin 9)), [1, 2, 3, 4, 5, 6, 7, 8, 9]),
   (((5 : Fin 9), (4 : Fin 9)), [1, 2, 3, 4, 5, 6, 7, 8, 9]),
   (((5 : Fin 9), (6 : Fin 9)), [1, 2, 3, 4, 5, 6, 7, 8, 9]),
   (((5 : Fin 9), (7 : Fin 9)), [1, 2, 3, 4, 5, 6, 7, 8, 9]),
   (((6 : Fin 9), (1 : Fin 9)), [1, 2, 3, 4, 5, 6, 7, 8, 9]),
   (((6 : Fin 9), (3 : Fin 9)), [1, 2, 3, 4, 5, 6, 7, 8, 9]),
   (((6 : Fin 9), (4 : Fin 9)), [1, 2, 3, 4, 5, 6, 7, 8, 9]),
   (((6 : Fin 9), (5 : Fin 9)), [1, 2, 3, 4, 5, 6, 7, 8, 9]),
   (((6 : Fin 9), (8 : Fin 9)), [1, 2, 3, 4, 5, 6, 7, 8, 9]),
   (((7 : Fin 9), (1 : Fin 9)), [1, 2, 3, 4, 5, 6, 7, 8, 9]),
   (((7 : Fin 9), (2 : Fin 9)), [1, 2, 3, 4, 5, 6, 7, 8, 9]),
   (((7 : Fin 9), (8 : Fin 9)), [1, 2, 3, 4, 5, 6, 7, 8, 9]),
   (((8 : Fin 9), (0 : Fin 9)), [1, 2, 3, 4, 5, 6, 7, 8, 9]),
   (((8 : Fin 9), (3 : Fin 9)), [1, 2, 3, 4, 5, 6, 7, 8, 9]),
   (((8 : Fin 9), (5 : Fin 9)), [1, 2, 3, 4, 5, 6, 7, 8, 9]),
   (((8 : Fin 9), (6 : Fin 9)), [1, 2, 3, 4, 5, 6, 7, 8, 9])]

/-- The candidate store of `gC6` after eliminating the givens of rows 0..0. -/
def c6s0 : Cands :=
  [(((0 : Fin 9), (2 : Fin 9)), [3, 9]),
   (((0 : Fin 9), (6 : Fin 9)), [3, 9]),
   (((1 : Fin 9), (3 : Fin 9)), [2, 3, 4, 5, 8, 9]),
   (((1 : Fin 9), (4 : Fin 9)), [2, 3, 4, 5, 8, 9]),
   (((1 : Fin 9), (6 : Fin 9)), [1, 2, 3, 5, 6, 7, 9]),
   (((3 : Fin 9), (1 : Fin 9)), [1, 2, 3, 4, 6, 7, 8, 9]),
   (((4 : Fin 9), (3 : Fin 9)), [1, 2, 3, 4, 5, 6, 8, 9]),
   (((4 : Fin 9), (4 : Fin 9)), [1, 2, 3, 4, 5, 7, 8, 9]),
   (((4 : Fin 9), (5 : Fin 9)), [2, 3, 4, 5, 6, 7, 8, 9]),
   (((4 : Fin 9), (7 : Fin 9)), [1, 2, 3, 5, 6, 7, 8, 9]),
   (((5 : Fin 9), (3 : Fin 9)), [1, 2, 3, 4, 5, 6, 8, 9]),
   (((5 : Fin 9), (4 : Fin 9)), [1, 2, 3, 4, 5, 7, 8, 9]),
   (((5 : Fin 9), (6 : Fin 9)), [1, 2, 3, 4, 5, 6, 7, 8, 9]),
   (((5 : Fin 9), (7 : Fin 9)), [1, 2, 3, 5, 6, 7, 8, 9]),
   (((6 : Fin 9), (1 : Fin 9)), [1, 2, 3, 4, 6, 7, 8, 9]),
   (((6 : Fin 9), (3 : Fin 9)), [1, 2, 3, 4, 5, 6, 8, 9]),
   (((6 : Fin 9), (4 : Fin 9)), [1, 2, 3, 4, 5, 7, 8, 9]),
   (((6 : Fin 9), (5 : Fin 9)), [2, 3, 4, 5, 6, 7, 8, 9]),
   (((6 : Fin 9), (8 : Fin 9)), [1, 2, 3, 4, 5, 6, 7, 9]),
   (((7 : Fin 9), (1 : Fin 9)), [1, 2, 3, 4, 6, 7, 8, 9]),
   (((7 : Fin 9), (2 : Fin 9)), [1, 2, 3, 4, 5, 6, 7, 8, 9]),
   (((7 : Fin 9), (8 : Fin 9)), [1, 2, 3, 4, 5, 6, 7, 9]),
   (((8 : Fin 9), (0 : Fin 9)), [1, 3, 4, 5, 6, 7, 8, 9]),
   (((8 : Fin 9), (3 : Fin 9)), [1, 2, 3, 4, 5, 6, 8, 9]),
   (((8 : Fin 9), (5 : Fin 9)), [2, 3, 4, 5, 6, 7, 8, 9]),
   (((8 : Fin 9), (6 : Fin 9)), [1, 2, 3, 4, 5, 6, 7, 8, 9])]

/-- The candidate store of `gC6` after eliminating the givens of rows 0..1. -/
def c6s1 : Cands :=
  [(((0 : Fin 9), (2 : Fin 9)), [3, 9]),
   (((0 : Fin 9), (6 : Fin 9)), [9]),
   (((1 : Fin 9), (3 : Fin 9)), [2, 5]),
   (((1 : Fin 9), (4 : Fin 9)), [2, 5]),
   (((1 : Fin 9), (6 : Fin 9)), [2, 5, 7]),
   (((3 : Fin 9), (1 : Fin 9)), [2, 3, 4, 6, 7, 8, 9]),
   (((4 : Fin 9), (3 : Fin 9)), [1, 2, 3, 4, 5, 6, 8, 9]),
   (((4 : Fin 9), (4 : Fin 9)), [1, 2, 3, 4, 5, 7, 8, 9]),
   (((4 : Fin 9), (5 : Fin 9)), [2, 3, 4, 5, 6, 7, 8]),
   (((4 : Fin 9), (7 : Fin 9)), [1, 2, 5, 6, 7, 8, 9]),
   (((5 : Fin 9), (3 : Fin 9)), [1, 2, 3, 4, 5, 6, 8, 9]),
   (((5 : Fin 9), (4 : Fin 9)), [1, 2, 3, 4, 5, 7, 8, 9]),
   (((5 : Fin 9), (6 : Fin 9)), [1, 2, 3, 4, 5, 6, 7, 8, 9]),
   (((5 : Fin 9), (7 : Fin 9)), [1, 2, 5, 6, 7, 8, 9]),
   (((6 : Fin 9), (1 : Fin 9)), [2, 3, 4, 6, 7, 8, 9]),
   (((6 : Fin 9), (3 : Fin 9)), [1, 2, 3, 4, 5, 6, 8, 9]),
   (((6 : Fin 9), (4 : Fin 9)), [1, 2, 3, 4, 5, 7, 8, 9]),
   (((6 : Fin 9), (5 : Fin 9)), [2, 3, 4, 5, 6, 7, 8]),
   (((6 : Fin 9), (8 : Fin 9)), [1, 2, 3, 4, 5, 7, 9]),
   (((7 : Fin 9), (1 : Fin 9)), [2, 3, 4, 6, 7, 8, 9]),
   (((7 : Fin 9), (2 : Fin 9)), [1, 2, 3, 4, 5, 6, 7, 9]),
   (((7 : Fin 9), (8 : Fin 9)), [1, 2, 3, 4, 5, 7, 9]),
   (((8 : Fin 9), (0 : Fin 9)), [1, 3, 5, 6, 7, 8, 9]),
   (((8 : Fin 9), (3 : Fin 9)), [1, 2, 3, 4, 5, 6, 8, 9]),
   (((8 : Fin 9), (5 : Fin 9)), [2, 3, 4, 5, 6, 7, 8]),
   (((8 : Fin 9), (6 : Fin 9)), [1, 2, 3, 4, 5, 6, 7, 8, 9])]

/-- The candidate store of `gC6` after eliminating the givens of rows 0..2. -/
def c6s2 : Cands :=
  [(((0 : Fin 9), (2 : Fin 9)), [3]),
   (((0 : Fin 9), (6 : Fin 9)), [9]),
   (((1 : Fin 9), (3 : Fin 9)), [2, 5]),
   (((1 : Fin 9), (4 : Fin 9)), [2, 5]),
   (((1 : Fin 9), (6 : Fin 9)), [7]),
   (((3 : Fin 9), (1 : Fin 9)), [2, 3, 4, 7, 8, 9]),
   (((4 : Fin 9), (3 : Fin 9)), [1, 2, 3, 4, 5, 6, 9]),
   (((4 : Fin 9), (4 : Fin 9)), [1, 2, 4, 5, 7, 8, 9]),
   (((4 : Fin 9), (5 : Fin 9)), [2, 3, 5, 6, 7, 8]),
   (((4 : Fin 9), (7 : Fin 9)), [1, 5, 6, 7, 8, 9]),
   (((5 : Fin 9), (3 : Fin 9)), [1, 2, 3, 4, 5, 6, 9]),
   (((5 : Fin 9), (4 : Fin 9)), [1, 2, 4, 5, 7, 8, 9]),
   (((5 : Fin 9), (6 : Fin 9)), [2, 3, 4, 5, 6, 7, 8, 9]),
   (((5 : Fin 9), (7 : Fin 9)), [1, 5, 6, 7, 8, 9]),
   (((6 : Fin 9), (1 : Fin 9)), [2, 3, 4, 7, 8, 9]),
   (((6 : Fin 9), (3 : Fin 9)), [1, 2, 3, 4, 5, 6, 9]),
   (((6 : Fin 9), (4 : Fin 9)), [1, 2, 4, 5, 7, 8, 9]),
   (((6 : Fin 9), (5 : Fin 9)), [2, 3, 5, 6, 7, 8]),
   (((6 : Fin 9), (8 : Fin 9)), [1, 2, 3, 4, 7, 9]),
   (((7 : Fin 9), (1 : Fin 9)), [2, 3, 4, 7, 8, 9]),
   (((7 : Fin 9), (2 : Fin 9)), [1, 2, 3, 4, 5, 6, 9]),
   (((7 : Fin 9), (8 : Fin 9)), [1, 2, 3, 4, 7, 9]),
   (((8 : Fin 9), (0 : Fin 9)), [1, 3, 5, 6, 7, 8]),
   (((8 : Fin 9), (3 : Fin 9)), [1, 2, 3, 4, 5, 6, 9]),
   (((8 : Fin 9), (5 : Fin 9)), [2, 3, 5, 6, 7, 8]),
   (((8 : Fin 9), (6 : Fin 9)), [2, 3, 4, 5, 6, 7, 8, 9])]

/-- The candidate store of `gC6` after eliminating the givens of rows 0..3. -/
def c6s3 : Cands :=
  [(((0 : Fin 9), (2 : Fin 9)), [3]),
   (((0 : Fin 9), (6 : Fin 9)), [9]),
   (((1 : Fin 9), (3 : Fin 9)), [2, 5]),
   (((1 : Fin 9), (4 : Fin 9)), [2, 5]),
   (((1 : Fin 9), (6 : Fin 9)), [7]),
   (((3 : Fin 9), (1 : Fin 9)), [4]),
   (((4 : Fin 9), (3 : Fin 9)), [2, 3, 4, 5, 6, 9]),
   (((4 : Fin 9), (4 : Fin 9)), [2, 4, 5, 9]),
   (((4 : Fin 9), (5 : Fin 9)), [2, 3, 5, 6]),
   (((4 : Fin 9), (7 : Fin 9)), [1, 6, 7, 8, 9]),
   (((5 : Fin 9), (3 : Fin 9)), [2, 3, 4, 5, 6, 9]),
   (((5 : Fin 9), (4 : Fin 9)), [2, 4, 5, 9]),
   (((5 : Fin 9), (6 : Fin 9)), [4, 6, 7, 8, 9]),
   (((5 : Fin 9), (7 : Fin 9)), [1, 6, 7, 8, 9]),
   (((6 : Fin 9), (1 : Fin 9)), [2, 3, 4, 7, 8, 9]),
   (((6 : Fin 9), (3 : Fin 9)), [2, 3, 4, 5, 6, 9]),
   (((6 : Fin 9), (4 : Fin 9)), [1, 2, 4, 5, 7, 9]),
   (((6 : Fin 9), (5 : Fin 9)), [2, 3, 5, 6, 8]),
   (((6 : Fin 9), (8 : Fin 9)), [1, 2, 4, 7, 9]),
   (((7 : Fin 9), (1 : Fin 9)), [2, 3, 4, 7, 8, 9]),
   (((7 : Fin 9), (2 : Fin 9)), [1, 2, 3, 4, 5, 6]),
   (((7 : Fin 9), (8 : Fin 9)), [1, 2, 4, 7, 9]),
   (((8 : Fin 9), (0 : Fin 9)), [1, 3, 5, 7, 8]),
   (((8 : Fin 9), (3 : Fin 9)), [2, 3, 4, 5, 6, 9]),
   (((8 : Fin 9), (5 : Fin 9)), [2, 3, 5, 6, 8]),
   (((8 : Fin 9), (6 : Fin 9)), [3, 4, 5, 6, 7, 8, 9])]

/-- The candidate store of `gC6` after eliminating the givens of rows 0..4. -/
def c6s4 : Cands :=
  [(((0 : Fin 9), (2 : Fin 9)), [3]),
   (((0 : Fin 9), (6 : Fin 9)), [9]),
   (((1 : Fin 9), (3 : Fin 9)), [2, 5]),
   (((1 : Fin 9), (4 : Fin 9)), [2, 5]),
   (((1 : Fin 9), (6 : Fin 9)), [7]),
   (((3 : Fin 9), (1 : Fin 9)), [4]),
   (((4 : Fin 9), (3 : Fin 9)), [2, 4, 6]),
   (((4 : Fin 9), (4 : Fin 9)), [2, 4]),
   (((4 : Fin 9), (5 : Fin 9)), [2, 6]),
   (((4 : Fin 9), (7 : Fin 9)), [1, 6]),
   (((5 : Fin 9), (3 : Fin 9)), [2, 3, 4, 5, 6, 9]),
   (((5 : Fin 9), (4 : Fin 9)), [2, 4, 5, 9]),
   (((5 : Fin 9), (6 : Fin 9)), [4, 6, 7]),
   (((5 : Fin 9), (7 : Fin 9)), [1, 6, 7]),
   (((6 : Fin 9), (1 : Fin 9)), [2, 4, 7, 8, 9]),
   (((6 : Fin 9), (3 : Fin 9)), [2, 3, 4, 5, 6, 9]),
   (((6 : Fin 9), (4 : Fin 9)), [1, 2, 4, 5, 7, 9]),
   (((6 : Fin 9), (5 : Fin 9)), [2, 3, 5, 6, 8]),
   (((6 : Fin 9), (8 : Fin 9)), [1, 2, 4, 7]),
   (((7 : Fin 9), (1 : Fin 9)), [2, 4, 7, 8, 9]),
   (((7 : Fin 9), (2 : Fin 9)), [1, 2, 3, 4, 6]),
   (((7 : Fin 9), (8 : Fin 9)), [1, 2, 4, 7]),
   (((8 : Fin 9), (0 : Fin 9)), [1, 3, 5, 8]),
   (((8 : Fin 9), (3 : Fin 9)), [2, 3, 4, 5, 6, 9]),
   (((8 : Fin 9), (5 : Fin 9)), [2, 3, 5, 6, 8]),
   (((8 : Fin 9), (6 : Fin 9)), [3, 4, 5, 6, 7, 9])]

/-- The candidate store of `gC6` after eliminating the givens of rows 0..5. -/
def c6s5 : Cands :=
  [(((0 : Fin 9), (2 : Fin 9)), [3]),
   (((0 : Fin 9), (6 : Fin 9)), [9]),
   (((1 : Fin 9), (3 : Fin 9)), [2, 5]),
   (((1 : Fin 9), (4 : Fin 9)), [2, 5]),
   (((1 : Fin 9), (6 : Fin 9)), [7]),
   (((3 : Fin 9), (1 : Fin 9)), [4]),
   (((4 : Fin 9), (3 : Fin 9)), [2, 4, 6]),
   (((4 : Fin 9), (4 : Fin 9)), [2, 4]),
   (((4 : Fin 9), (5 : Fin 9)), [2, 6]),
   (((4 : Fin 9), (7 : Fin 9)), [1, 6]),
   (((5 : Fin 9), (3 : Fin 9)), [5, 6, 9]),
   (((5 : Fin 9), (4 : Fin 9)), [5, 9]),
   (((5 : Fin 9), (6 : Fin 9)), [6, 7]),
   (((5 : Fin 9), (7 : Fin 9)), [6, 7]),
   (((6 : Fin 9), (1 : Fin 9)), [2, 4, 7, 9]),
   (((6 : Fin 9), (3 : Fin 9)), [2, 3, 4, 5, 6, 9]),
   (((6 : Fin 9), (4 : Fin 9)), [1, 2, 4, 5, 7, 9]),
   (((6 : Fin 9), (5 : Fin 9)), [2, 5, 6, 8]),
   (((6 : Fin 9), (8 : Fin 9)), [1, 2, 7]),
   (((7 : Fin 9), (1 : Fin 9)), [2, 4, 7, 9]),
   (((7 : Fin 9), (2 : Fin 9)), [1, 3, 4, 6]),
   (((7 : Fin 9), (8 : Fin 9)), [1, 2, 7]),
   (((8 : Fin 9), (0 : Fin 9)), [3, 5, 8]),
   (((8 : Fin 9), (3 : Fin 9)), [2, 3, 4, 5, 6, 9]),
   (((8 : Fin 9), (5 : Fin 9)), [2, 5, 6, 8]),
   (((8 : Fin 9), (6 : Fin 9)), [3, 4, 5, 6, 7, 9])]

/-- The candidate store of `gC6` after eliminating the givens of rows 0..6. -/
def c6s6 : Cands :=
  [(((0 : Fin 9), (2 : Fin 9)), [3]),
   (((0 : Fin 9), (6 : Fin 9)), [9]),
   (((1 : Fin 9), (3 : Fin 9)), [2, 5]),
   (((1 : Fin 9), (4 : Fin 9)), [2, 5]),
   (((1 : Fin 9), (6 : Fin 9)), [7]),
   (((3 : Fin 9), (1 : Fin 9)), [4]),
   (((4 : Fin 9), (3 : Fin 9)), [2, 4, 6]),
   (((4 : Fin 9), (4 : Fin 9)), [2, 4]),
   (((4 : Fin 9), (5 : Fin 9)), [2, 6]),
   (((4 : Fin 9), (7 : Fin 9)), [1]),
   (((5 : Fin 9), (3 : Fin 9)), [5, 6, 9]),
   (((5 : Fin 9), (4 : Fin 9)), [5, 9]),
   (((5 : Fin 9), (6 : Fin 9)), [6, 7]),
   (((5 : Fin 9), (7 : Fin 9)), [7]),
   (((6 : Fin 9), (1 : Fin 9)), [2, 4, 7, 9]),
   (((6 : Fin 9), (3 : Fin 9)), [2, 4, 5, 9]),
   (((6 : Fin 9), (4 : Fin 9)), [2, 4, 5, 7, 9]),
   (((6 : Fin 9), (5 : Fin 9)), [2, 5]),
   (((6 : Fin 9), (8 : Fin 9)), [2, 7]),
   (((7 : Fin 9), (1 : Fin 9)), [2, 4, 7, 9]),
   (((7 : Fin 9), (2 : Fin 9)), [3, 4, 6]),
   (((7 : Fin 9), (8 : Fin 9)), [1, 2, 7]),
   (((8 : Fin 9), (0 : Fin 9)), [3, 5]),
   (((8 : Fin 9), (3 : Fin 9)), [2, 3, 4, 5, 6, 9]),
   (((8 : Fin 9), (5 : Fin 9)), [2, 5, 6, 8]),
   (((8 : Fin 9), (6 : Fin 9)), [4, 5, 7, 9])]

/-- The candidate store of `gC6` after eliminating the givens of rows 0..7. -/
def c6s7 : Cands :=
  [(((0 : Fin 9), (2 : Fin 9)), [3]),
   (((0 : Fin 9), (6 : Fin 9)), [9]),
   (((1 : Fin 9), (3 : Fin 9)), [2, 5]),
   (((1 : Fin 9), (4 : Fin 9)), [2, 5]),
   (((1 : Fin 9), (6 : Fin 9)), [7]),
   (((3 : Fin 9), (1 : Fin 9)), [4]),
   (((4 : Fin 9), (3 : Fin 9)), [2, 4, 6]),
   (((4 : Fin 9), (4 : Fin 9)), [2, 4]),
   (((4 : Fin 9), (5 : Fin 9)), [2, 6]),
   (((4 : Fin 9), (7 : Fin 9)), [1]),
   (((5 : Fin 9), (3 : Fin 9)), [5, 6, 9]),
   (((5 : Fin 9), (4 : Fin 9)), [5, 9]),
   (((5 : Fin 9), (6 : Fin 9)), [6, 7]),
   (((5 : Fin 9), (7 : Fin 9)), [7]),
   (((6 : Fin 9), (1 : Fin 9)), [2, 4, 7, 9]),
   (((6 : Fin 9), (3 : Fin 9)), [2, 4, 5, 9]),
   (((6 : Fin 9), (4 : Fin 9)), [2, 4, 5, 7, 9]),
   (((6 : Fin 9), (5 : Fin 9)), [2, 5]),
   (((6 : Fin 9), (8 : Fin 9)), [2, 7]),
   (((7 : Fin 9), (1 : Fin 9)), [2, 7]),
   (((7 : Fin 9), (2 : Fin 9)), [6]),
   (((7 : Fin 9), (8 : Fin 9)), [2, 7]),
   (((8 : Fin 9), (0 : Fin 9)), [3]),
   (((8 : Fin 9), (3 : Fin 9)), [2, 4, 5, 6, 9]),
   (((8 : Fin 9), (5 : Fin 9)), [2, 5, 6]),
   (((8 : Fin 9), (6 : Fin 9)), [5, 7])]

/-- The candidate store of `gC6` after eliminating the givens of rows 0..8. -/
def c6s8 : Cands :=
  [(((0 : Fin 9), (2 : Fin 9)), [3]),
   (((0 : Fin 9), (6 : Fin 9)), [9]),
   (((1 : Fin 9), (3 : Fin 9)), [2, 5]),
   (((1 : Fin 9), (4 : Fin 9)), [2, 5]),
   (((1 : Fin 9), (6 : Fin 9)), [7]),
   (((3 : Fin 9), (1 : Fin 9)), [4]),
   (((4 : Fin 9), (3 : Fin 9)), [2, 4, 6]),
   (((4 : Fin 9), (4 : Fin 9)), [2, 4]),
   (((4 : Fin 9), (5 : Fin 9)), [2, 6]),
   (((4 : Fin 9), (7 : Fin 9)), [1]),
   (((5 : Fin 9), (3 : Fin 9)), [5, 6, 9]),
   (((5 : Fin 9), (4 : Fin 9)), [5, 9]),
   (((5 : Fin 9), (6 : Fin 9)), [6, 7]),
   (((5 : Fin 9), (7 : Fin 9)), [7]),
   (((6 : Fin 9), (1 : Fin 9)), [2, 7]),
   (((6 : Fin 9), (3 : Fin 9)), [2, 4, 5, 9]),
   (((6 : Fin 9), (4 : Fin 9)), [2, 4, 5, 9]),
   (((6 : Fin 9), (5 : Fin 9)), [2, 5]),
   (((6 : Fin 9), (8 : Fin 9)), [2, 7]),
   (((7 : Fin 9), (1 : Fin 9)), [2, 7]),
   (((7 : Fin 9), (2 : Fin 9)), [6]),
   (((7 : Fin 9), (8 : Fin 9)), [2, 7]),
   (((8 : Fin 9), (0 : Fin 9)), [3]),
   (((8 : Fin 9), (3 : Fin 9)), [2, 5, 6]),
   (((8 : Fin 9), (5 : Fin 9)), [2, 5, 6]),
   (((8 : Fin 9), (6 : Fin 9)), [5])]

/-- The initial solve state on `gC6`. -/
def c6St0 : SolveState := ⟨gC6, c6s8, zeroCounts, none, 0⟩

/-- Solve state 1 of the HiddenSingle-capped run on `gC6`. -/
def c6aSt1 : SolveState :=
  ⟨mkGrid
  [[2, 5, 3, 7, 6, 1, 9, 4, 8],
   [4, 1, 8, 0, 0, 9, 7, 3, 6],
   [9, 6, 7, 8, 3, 4, 1, 2, 5],
   [6, 4, 9, 1, 8, 7, 2, 5, 3],
   [7, 3, 5, 0, 0, 0, 8, 1, 9],
   [1, 8, 2, 0, 0, 3, 0, 7, 4],
   [8, 0, 1, 0, 0, 0, 3, 6, 0],
   [5, 0, 6, 3, 1, 8, 4, 9, 0],
   [3, 9, 4, 0, 7, 0, 5, 8, 1]],
  [(((1 : Fin 9), (3 : Fin 9)), [2, 5]),
   (((1 : Fin 9), (4 : Fin 9)), [2, 5]),
   (((4 : Fin 9), (3 : Fin 9)), [2, 4, 6]),
   (((4 : Fin 9), (4 : Fin 9)), [2, 4]),
   (((4 : Fin 9), (5 : Fin 9)), [2, 6]),
   (((5 : Fin 9), (3 : Fin 9)), [5, 6, 9]),
   (((5 : Fin 9), (4 : Fin 9)), [5, 9]),
   (((5 : Fin 9), (6 : Fin 9)), [6]),
   (((6 : Fin 9), (1 : Fin 9)), [2, 7]),
   (((6 : Fin 9), (3 : Fin 9)), [2, 4, 5, 9]),
   (((6 : Fin 9), (4 : Fin 9)), [2, 4, 5, 9]),
   (((6 : Fin 9), (5 : Fin 9)), [2, 5]),
   (((6 : Fin 9), (8 : Fin 9)), [2, 7]),
   (((7 : Fin 9), (1 : Fin 9)), [2, 7]),
   (((7 : Fin 9), (8 : Fin 9)), [2, 7]),
   (((8 : Fin 9), (3 : Fin 9)), [2, 6]),
   (((8 : Fin 9), (5 : Fin 9)), [2, 6])],
  ⟨9, 0, 0, 0, 0, 0, 0, 0, 0⟩, some Technique.NakedSingle, 9⟩

/-- Solve state 2 of the HiddenSingle-capped run on `gC6`. -/
def c6aSt2 : SolveState :=
  ⟨mkGrid
  [[2, 5, 3, 7, 6, 1, 9, 4, 8],
   [4, 1, 8, 0, 0, 9, 7, 3, 6],
   [9, 6, 7, 8, 3, 4, 1, 2, 5],
   [6, 4, 9, 1, 8, 7, 2, 5, 3],
   [7, 3, 5, 0, 0, 0, 8, 1, 9],
   [1, 8, 2, 0, 0, 3, 6, 7, 4],
   [8, 0, 1, 0, 0, 0, 3, 6, 0],
   [5, 0, 6, 3, 1, 8, 4, 9, 0],
   [3, 9, 4, 0, 7, 0, 5, 8, 1]],
  [(((1 : Fin 9), (3 : Fin 9)), [2, 5]),
   (((1 : Fin 9), (4 : Fin 9)), [2, 5]),
   (((4 : Fin 9), (3 : Fin 9)), [2, 4, 6]),
   (((4 : Fin 9), (4 : Fin 9)), [2, 4]),
   (((4 : Fin 9), (5 : Fin 9)), [2, 6]),
   (((5 : Fin 9), (3 : Fin 9)), [5, 9]),
   (((5 : Fin 9), (4 : Fin 9)), [5, 9]),
   (((6 : Fin 9), (1 : Fin 9)), [2, 7]),
   (((6 : Fin 9), (3 : Fin 9)), [2, 4, 5, 9]),
   (((6 : Fin 9), (4 : Fin 9)), [2, 4, 5, 9]),
   (((6 : Fin 9), (5 : Fin 9)), [2, 5]),
   (((6 : Fin 9), (8 : Fin 9)), [2, 7]),
   (((7 : Fin 9), (1 : Fin 9)), [2, 7]),
   (((7 : Fin 9), (8 : Fin 9)), [2, 7]),
   (((8 : Fin 9), (3 : Fin 9)), [2, 6]),
   (((8 : Fin 9), (5 : Fin 9)), [2, 6])],
  ⟨10, 0, 0, 0, 0, 0, 0, 0, 0⟩, some Technique.NakedSingle, 10⟩

/-- Solve state 3 of the HiddenSingle-capped run on `gC6`. -/
def c6aSt3 : SolveState :=
  ⟨mkGrid
  [[2, 5, 3, 7, 6, 1, 9, 4, 8],
   [4, 1, 8, 0, 0, 9, 7, 3, 6],
   [9, 6, 7, 8, 3, 4, 1, 2, 5],
   [6, 4, 9, 1, 8, 7, 2, 5, 3],
   [7, 3, 5, 0, 0, 0, 8, 1, 9],
   [1, 8, 2, 0, 0, 3, 6, 7, 4],
   [8, 0, 1, 0, 0, 5, 3, 6, 0],
   [5, 0, 6, 3, 1, 8, 4, 9, 0],
   [3, 9, 4, 0, 7, 0, 5, 8, 1]],
  [(((1 : Fin 9), (3 : Fin 9)), [2, 5]),
   (((1 : Fin 9), (4 : Fin 9)), [2, 5]),
   (((4 : Fin 9), (3 : Fin 9)), [2, 4, 6]),
   (((4 : Fin 9), (4 : Fin 9)), [2, 4]),
   (((4 : Fin 9), (5 : Fin 9)), [2, 6]),
   (((5 : Fin 9), (3 : Fin 9)), [5, 9]),
   (((5 : Fin 9), (4 : Fin 9)), [5, 9]),
   (((6 : Fin 9), (1 : Fin 9)), [2, 7]),
   (((6 : Fin 9), (3 : Fin 9)), [2, 4, 9]),
   (((6 : Fin 9), (4 : Fin 9)), [2, 4, 9]),
   (((6 : Fin 9), (8 : Fin 9)), [2, 7]),
   (((7 : Fin 9), (1 : Fin 9)), [2, 7]),
   (((7 : Fin 9), (8 : Fin 9)), [2, 7]),
   (((8 : Fin 9), (3 : Fin 9)), [2, 6]),
   (((8 : Fin 9), (5 : Fin 9)), [2, 6])],
  ⟨10, 1, 0, 0, 0, 0, 0, 0, 0⟩, some Technique.HiddenSingle, 11⟩

/-- Solve state 1 of the LockedCandidate-capped run on `gC6`. -/
def c6bSt1 : SolveState :=
  ⟨mkGrid
  [[2, 5, 3, 7, 6, 1, 9, 4, 8],
   [4, 1, 8, 0, 0, 9, 7, 3, 6],
   [9, 6, 7, 8, 3, 4, 1, 2, 5],
   [6, 4, 9, 1, 8, 7, 2, 5, 3],
   [7, 3, 5, 0, 0, 0, 8, 1, 9],
   [1, 8, 2, 0, 0, 3, 0, 7, 4],
   [8, 0, 1, 0, 0, 0, 3, 6, 0],
   [5, 0, 6, 3, 1, 8, 4, 9, 0],
   [3, 9, 4, 0, 7, 0, 5, 8, 1]],
  [(((1 : Fin 9), (3 : Fin 9)), [2, 5]),
   (((1 : Fin 9), (4 : Fin 9)), [2, 5]),
   (((4 : Fin 9), (3 : Fin 9)), [2, 4, 6]),
   (((4 : Fin 9), (4 : Fin 9)), [2, 4]),
   (((4 : Fin 9), (5 : Fin 9)), [2, 6]),
   (((5 : Fin 9), (3 : Fin 9)), [5, 6, 9]),
   (((5 : Fin 9), (4 : Fin 9)), [5, 9]),
   (((5 : Fin 9), (6 : Fin 9)), [6]),
   (((6 : Fin 9), (1 : Fin 9)), [2, 7]),
   (((6 : Fin 9), (3 : Fin 9)), [2, 4, 5, 9]),
   (((6 : Fin 9), (4 : Fin 9)), [2, 4, 5, 9]),
   (((6 : Fin 9), (5 : Fin 9)), [2, 5]),
   (((6 : Fin 9), (8 : Fin 9)), [2, 7]),
   (((7 : Fin 9), (1 : Fin 9)), [2, 7]),
   (((7 : Fin 9), (8 : Fin 9)), [2, 7]),
   (((8 : Fin 9), (3 : Fin 9)), [2, 6]),
   (((8 : Fin 9), (5 : Fin 9)), [2, 6])],
  ⟨9, 0, 0, 0, 0, 0, 0, 0, 0⟩, some Technique.NakedSingle, 9⟩

/-- Solve state 2 of the LockedCandidate-capped run on `gC6`. -/
def c6bSt2 : SolveState :=
  ⟨mkGrid
  [[2, 5, 3, 7, 6, 1, 9, 4, 8],
   [4, 1, 8, 0, 0, 9, 7, 3, 6],
   [9, 6, 7, 8, 3, 4, 1, 2, 5],
   [6, 4, 9, 1, 8, 7, 2, 5, 3],
   [7, 3, 5, 0, 0, 0, 8, 1, 9],
   [1, 8, 2, 0, 0, 3, 6, 7, 4],
   [8, 0, 1, 0, 0, 0, 3, 6, 0],
   [5, 0, 6, 3, 1, 8, 4, 9, 0],
   [3, 9, 4, 0, 7, 0, 5, 8, 1]],
  [(((1 : Fin 9), (3 : Fin 9)), [2, 5]),
   (((1 : Fin 9), (4 : Fin 9)), [2, 5]),
   (((4 : Fin 9), (3 : Fin 9)), [2, 4, 6]),
   (((4 : Fin 9), (4 : Fin 9)), [2, 4]),
   (((4 : Fin 9), (5 : Fin 9)), [2, 6]),
   (((5 : Fin 9), (3 : Fin 9)), [5, 9]),
   (((5 : Fin 9), (4 : Fin 9)), [5, 9]),
   (((6 : Fin 9), (1 : Fin 9)), [2, 7]),
   (((6 : Fin 9), (3 : Fin 9)), [2, 4, 5, 9]),
   (((6 : Fin 9), (4 : Fin 9)), [2, 4, 5, 9]),
   (((6 : Fin 9), (5 : Fin 9)), [2, 5]),
   (((6 : Fin 9), (8 : Fin 9)), [2, 7]),
   (((7 : Fin 9), (1 : Fin 9)), [2, 7]),
   (((7 : Fin 9), (8 : Fin 9)), [2, 7]),
   (((8 : Fin 9), (3 : Fin 9)), [2, 6]),
   (((8 : Fin 9), (5 : Fin 9)), [2, 6])],
  ⟨10, 0, 0, 0, 0, 0, 0, 0, 0⟩, some Technique.NakedSingle, 10⟩

/-- Solve state 3 of the LockedCandidate-capped run on `gC6`. -/
def c6bSt3 : SolveState :=
  ⟨mkGrid
  [[2, 5, 3, 7, 6, 1, 9, 4, 8],
   [4, 1, 8, 0, 0, 9, 7, 3, 6],
   [9, 6, 7, 8, 3, 4, 1, 2, 5],
   [6, 4, 9, 1, 8, 7, 2, 5, 3],
   [7, 3, 5, 0, 0, 0, 8, 1, 9],
   [1, 8, 2, 0, 0, 3, 6, 7, 4],
   [8, 0, 1, 0, 0, 5, 3, 6, 0],
   [5, 0, 6, 3, 1, 8, 4, 9, 0],
   [3, 9, 4, 0, 7, 0, 5, 8, 1]],
  [(((1 : Fin 9), (3 : Fin 9)), [2, 5]),
   (((1 : Fin 9), (4 : Fin 9)), [2, 5]),
   (((4 : Fin 9), (3 : Fin 9)), [2, 4, 6]),
   (((4 : Fin 9), (4 : Fin 9)), [2, 4]),
   (((4 : Fin 9), (5 : Fin 9)), [2, 6]),
   (((5 : Fin 9), (3 : Fin 9)), [5, 9]),
   (((5 : Fin 9), (4 : Fin 9)), [5, 9]),
   (((6 : Fin 9), (1 : Fin 9)), [2, 7]),
   (((6 : Fin 9), (3 : Fin 9)), [2, 4, 9]),
   (((6 : Fin 9), (4 : Fin 9)), [2, 4, 9]),
   (((6 : Fin 9), (8 : Fin 9)), [2, 7]),
   (((7 : Fin 9), (1 : Fin 9)), [2, 7]),
   (((7 : Fin 9), (8 : Fin 9)), [2, 7]),
   (((8 : Fin 9), (3 : Fin 9)), [2, 6]),
   (((8 : Fin 9), (5 : Fin 9)), [2, 6])],
  ⟨10, 1, 0, 0, 0, 0, 0, 0, 0⟩, some Technique.HiddenSingle, 11⟩

/-- Solve state 4 of the LockedCandidate-capped run on `gC6`. -/
def c6bSt4 : SolveState :=
  ⟨mkGrid
  [[2, 5, 3, 7, 6, 1, 9, 4, 8],
   [4, 1, 8, 0, 0, 9, 7, 3, 6],
   [9, 6, 7, 8, 3, 4, 1, 2, 5],
   [6, 4, 9, 1, 8, 7, 2, 5, 3],
   [7, 3, 5, 0, 0, 0, 8, 1, 9],
   [1, 8, 2, 0, 0, 3, 6, 7, 4],
   [8, 0, 1, 0, 0, 5, 3, 6, 0],
   [5, 0, 6, 3, 1, 8, 4, 9, 0],
   [3, 9, 4, 0, 7, 0, 5, 8, 1]],
  [(((1 : Fin 9), (3 : Fin 9)), [2, 5]),
   (((1 : Fin 9), (4 : Fin 9)), [2, 5]),
   (((4 : Fin 9), (3 : Fin 9)), [2, 4, 6]),
   (((4 : Fin 9), (4 : Fin 9)), [2, 4]),
   (((4 : Fin 9), (5 : Fin 9)), [2, 6]),
   (((5 : Fin 9), (3 : Fin 9)), [5, 9]),
   (((5 : Fin 9), (4 : Fin 9)), [5, 9]),
   (((6 : Fin 9), (1 : Fin 9)), [2, 7]),
   (((6 : Fin 9), (3 : Fin 9)), [4, 9]),
   (((6 : Fin 9), (4 : Fin 9)), [4, 9]),
   (((6 : Fin 9), (8 : Fin 9)), [2, 7]),
   (((7 : Fin 9), (1 : Fin 9)), [2, 7]),
   (((7 : Fin 9), (8 : Fin 9)), [2, 7]),
   (((8 : Fin 9), (3 : Fin 9)), [2, 6]),
   (((8 : Fin 9), (5 : Fin 9)), [2, 6])],
  ⟨10, 1, 2, 0, 0, 0, 0, 0, 0⟩, some Technique.LockedCandidate, 13⟩

/-- An 81-character board string containing letters, symbols, zeros and
digits, used to exercise the parser on malformed input. -/
def sMalformed : List Char :=
  String.toList "ab!056789x #0@@123...0zzzZZ999---___///...===+++***((_abcdefghi%%%%%%%%012345678Q"

/-! Basic lemmas about the grid model. -/

theorem update_same (g : Grid) (r c : Fin 9) (v : ℕ) :
    update g r c v r c = v := by
  simp [update]

theorem update_update (g : Grid) (r c : Fin 9) (v w : ℕ) :
    update (update g r c v) r c w = update g r c w := by
  funext r2 c2
  simp only [update]
  by_cases h : r2 = r ∧ c2 = c <;> simp [h]

theorem update_cancel (g : Grid) (r c : Fin 9) (h : g r c = 0) :
    update g r c 0 = g := by
  funext r2 c2
  simp only [update]
  by_cases hrc : r2 = r ∧ c2 = c
  · rw [if_pos hrc, hrc.1, hrc.2, h]
  · rw [if_neg hrc]

theorem update_ne (g : Grid) (r c : Fin 9) (n : ℕ) (q : Cell) (h : q ≠ (r, c)) :
    update g r c n q.1 q.2 = g q.1 q.2 := by
  obtain ⟨qr, qc⟩ := q
  simp only [update]
  rw [if_neg]
  intro hc
  exact h (by simp only [Prod.mk.injEq]; exact hc)

theorem sees_symm (p q : Cell) (h : sees p q) : sees q p := by
  rcases h with h | h | h
  · exact Or.inl h.symm
  · exact Or.inr (Or.inl h.symm)
  · exact Or.inr (Or.inr h.symm)

theorem copyAnyGrid_eq (g : Grid) : copyAnyGrid g = g := rfl

theorem cloneGrid_eq (g : Grid) : cloneGrid g = g := rfl

theorem mem_allCells (p : Cell) : p ∈ allCells := by
  rcases p with ⟨r, c⟩
  simp [allCells]

/-! Restoration: `countSolutionsRecursive` returns its grid exactly as it
received it (every branch undoes its tentative placement). -/

theorem countTry_snd (deeper : Grid → ℕ × Grid)
    (hrec : ∀ g2, (deeper g2).2 = g2) :
    ∀ (nums : List ℕ) (g : Grid) (r c : Fin 9) (cap acc : ℕ),
      g r c = 0 → (countTry deeper r c cap nums g acc).2 = g := by
  intro nums
  induction nums with
  | nil => intro g r c cap acc h0; rfl
  | cons n ns ihn =>
    intro g r c cap acc h0
    rw [countTry]
    by_cases hv : isValidForGrid g r c n = true
    · rw [if_pos hv]
      simp only [hrec (update g r c n), update_update]
      rw [update_cancel g r c h0]
      by_cases hcap : cap ≤ acc + (deeper (update g r c n)).1
      · rw [if_pos hcap]
      · rw [if_neg hcap]
        exact ihn g r c cap _ h0
    · rw [if_neg hv]
      exact ihn g r c cap acc h0

theorem countRec_snd (cells : List Cell) :
    ∀ (cap : ℕ) (g : Grid), (countRec cells cap g).2 = g := by
  induction cells with
  | nil => intro cap g; rfl
  | cons p rest ih =>
    intro cap g
    rcases p with ⟨r, c⟩
    rw [countRec]
    by_cases h : g r c = 0
    · rw [if_neg fun hn => hn h]
      exact countTry_snd (countRec rest cap) (ih cap) digits g r c cap 0 h
    · rw [if_pos h]
      exact ih cap g

/-! Cap behaviour of the counter: below the cap the returned value is the
exact count; at or above the cap the returned value is at least the cap
(the early exit can overshoot, see the counterexample below). -/

theorem countTry_cap (deeper : Grid → ℕ × Grid) (erecall : Grid → ℕ)
    (cap : ℕ)
    (hsnd : ∀ g2, (deeper g2).2 = g2)
    (hlt : ∀ g2, erecall g2 < cap → (deeper g2).1 = erecall g2)
    (hge : ∀ g2, cap ≤ erecall g2 → cap ≤ (deeper g2).1) :
    ∀ (nums : List ℕ) (g : Grid) (r c : Fin 9) (acc : ℕ),
      g r c = 0 → acc < cap →
      (acc + ecountTry erecall g r c nums < cap →
        (countTry deeper r c cap nums g acc).1 =
          acc + ecountTry erecall g r c nums) ∧
      (cap ≤ acc + ecountTry erecall g r c nums →
        cap ≤ (countTry deeper r c cap nums g acc).1) := by
  intro nums
  induction nums with
  | nil =>
    intro g r c acc h0 hacc
    rw [countTry, ecountTry]
    exact ⟨fun _ => by omega, fun h => by omega⟩
  | cons n ns ihn =>
    intro g r c acc h0 hacc
    rw [countTry, ecountTry]
    by_cases hv : isValidForGrid g r c n = true
    · rw [if_pos hv, if_pos hv]
      simp only [hsnd (update g r c n), update_update]
      rw [update_cancel g r c h0]
      by_cases he : erecall (update g r c n) < cap
      · have hfst := hlt (update g r c n) he
        by_cases hcap : cap ≤ acc + (deeper (update g r c n)).1
        · rw [if_pos hcap]
          constructor
          · intro hx
            omega
          · intro _
            omega
        · rw [if_neg hcap]
          have := ihn g r c (acc + (deeper (update g r c n)).1) h0 (by omega)
          constructor
          · intro hx
            rw [(this).1 (by omega)]
            omega
          · intro hx
            exact (this).2 (by omega)
      · have hfst := hge (update g r c n) (by omega)
        have hcap : cap ≤ acc + (deeper (update g r c n)).1 := by omega
        rw [if_pos hcap]
        constructor
        · intro hx
          omega
        · intro _
          omega
    · rw [if_neg hv, if_neg hv]
      have := ihn g r c acc h0 hacc
      constructor
      · intro hx
        rw [(this).1 (by omega)]
        omega
      · intro hx
        exact (this).2 (by omega)

theorem countRec_cap (cells : List Cell) :
    ∀ (cap : ℕ) (g : Grid),
      (ecount cells g < cap → (countRec cells cap g).1 = ecount cells g) ∧
      (cap ≤ ecount cells g → cap ≤ (countRec cells cap g).1) := by
  induction cells with
  | nil =>
    intro cap g
    exact ⟨fun _ => rfl, fun h => h⟩
  | cons p rest ih =>
    intro cap g
    rcases p with ⟨r, c⟩
    rw [countRec, ecount]
    by_cases h : g r c = 0
    · rw [if_neg fun hn => hn h, if_neg fun hn => hn h]
      rcases cap with _ | cap2
      · exact ⟨fun habs => absurd habs (by omega), fun _ => Nat.zero_le _⟩
      · have := countTry_cap (countRec rest (cap2 + 1)) (ecount rest) (cap2 + 1)
          (fun g2 => countRec_snd rest (cap2 + 1) g2)
          (fun g2 => (ih (cap2 + 1) g2).1) (fun g2 => (ih (cap2 + 1) g2).2)
          digits g r c 0 h (by omega)
        constructor
        · intro hx
          have := (this).1 (by omega)
          omega
        · intro hx
          exact (this).2 (by omega)
    · rw [if_pos h, if_pos h]
      exact ih cap g

/-! Facts about validity of a placement. -/

theorem mem_cellsInBox (p : Cell) (b : ℕ) :
    p ∈ cellsInBox b ↔ boxOf p.1 p.2 = b := by
  simp [cellsInBox, mem_allCells]

theorem isValid_iff (g : Grid) (r c : Fin 9) (n : ℕ) :
    isValidForGrid g r c n = true ↔
      ∀ q : Cell, sees (r, c) q → g q.1 q.2 ≠ n := by
  constructor
  · intro h q hq
    obtain ⟨qr, qc⟩ := q
    simp only [isValidForGrid, Bool.and_eq_true, List.all_eq_true, bne_iff_ne,
      ne_eq] at h
    obtain ⟨⟨hrow, hcol⟩, hbox⟩ := h
    rcases hq with h1 | h2 | h3
    · have h1 : r = qr := h1
      subst h1
      exact hrow qc (List.mem_finRange _)
    · have h2 : c = qc := h2
      subst h2
      exact hcol qr (List.mem_finRange _)
    · exact hbox (qr, qc) ((mem_cellsInBox (qr, qc) (boxOf r c)).2 h3.symm)
  · intro h
    simp only [isValidForGrid, Bool.and_eq_true, List.all_eq_true, bne_iff_ne,
      ne_eq]
    refine ⟨⟨fun x _ => ?_, fun x _ => ?_⟩, fun p hp => ?_⟩
    · exact h (r, x) (Or.inl rfl)
    · exact h (x, c) (Or.inr (Or.inl rfl))
    · exact h p (Or.inr (Or.inr ((mem_cellsInBox p _).1 hp).symm))

theorem conflictFree_update (g : Grid) (r c : Fin 9) (n : ℕ)
    (hcf : conflictFree g) (hv : isValidForGrid g r c n = true) :
    conflictFree (update g r c n) := by
  have hval := (isValid_iff g r c n).1 hv
  intro p q hpq hsees hp hq
  by_cases hpc : p = (r, c) <;> by_cases hqc : q = (r, c)
  · exact absurd (hpc.trans hqc.symm) hpq
  · have e1 : update g r c n p.1 p.2 = n := by
      rw [hpc]; exact update_same g r c n
    have e2 : update g r c n q.1 q.2 = g q.1 q.2 := update_ne g r c n q hqc
    rw [e1, e2]
    rw [e2] at hq
    have hs : sees (r, c) q := by rw [← hpc]; exact hsees
    exact fun hc => hval q hs hc.symm
  · have e1 : update g r c n p.1 p.2 = g p.1 p.2 := update_ne g r c n p hpc
    have e2 : update g r c n q.1 q.2 = n := by
      rw [hqc]; exact update_same g r c n
    rw [e1, e2]
    rw [e1] at hp
    have hs : sees (r, c) p := by rw [← hqc]; exact sees_symm p q hsees
    exact hval p hs
  · have e1 := update_ne g r c n p hpc
    have e2 := update_ne g r c n q hqc
    rw [e1, e2]
    rw [e1] at hp
    rw [e2] at hq
    exact hcf p q hpq hsees hp hq

/-! Relating the cap-free search count to the mathematical completion
count. -/

theorem digits_bounds (n : ℕ) (hn : n ∈ digits) : 1 ≤ n ∧ n ≤ 9 := by
  simp only [digits, List.mem_cons, List.not_mem_nil, or_false] at hn
  rcases hn with rfl | rfl | rfl | rfl | rfl | rfl | rfl | rfl | rfl <;> omega

theorem digits_nodup : digits.Nodup := by decide

theorem mem_digits_of_bounds (n : ℕ) (h1 : 1 ≤ n) (h9 : n ≤ 9) : n ∈ digits := by
  interval_cases n <;> decide

theorem inRange_update (g : Grid) (r c : Fin 9) (n : ℕ) (hg : inRange g)
    (hn : n ≤ 9) : inRange (update g r c n) := by
  intro r2 c2
  simp only [update]
  by_cases h : r2 = r ∧ c2 = c
  · rw [if_pos h]; exact hn
  · rw [if_neg h]; exact hg r2 c2

theorem toG_pos (f : Fin 9 → Fin 9 → Fin 9) (r c : Fin 9) : 1 ≤ toG f r c :=
  Nat.le_add_left 1 (f r c).1

theorem nCompletions_full (g : Grid) (hfull : gridFull g) (hok : gridOK g) :
    nCompletions g = 1 := by
  have hr : ∀ r c : Fin 9, 1 ≤ g r c ∧ g r c ≤ 9 := fun r c =>
    ⟨Nat.one_le_iff_ne_zero.2 (hfull r c), hok.2 r c⟩
  have hlt : ∀ r c : Fin 9, g r c - 1 < 9 := fun r c => by have := hr r c; omega
  rw [nCompletions, Finset.card_eq_one]
  refine ⟨fun r c => ⟨g r c - 1, hlt r c⟩, ?_⟩
  ext f
  simp only [Finset.mem_filter, Finset.mem_univ, true_and, Finset.mem_singleton]
  have htog : toG (fun r c => (⟨g r c - 1, hlt r c⟩ : Fin 9)) = g := by
    funext r c
    show g r c - 1 + 1 = g r c
    have := hr r c
    omega
  constructor
  · intro hf
    funext r c
    have h1 : (f r c).1 + 1 = g r c := hf.1 r c (hfull r c)
    exact Fin.ext (by show (f r c).1 = g r c - 1; omega)
  · intro hf
    subst hf
    exact ⟨fun r c _ => by rw [htog], by rw [htog]; exact hok.1⟩

theorem nCompletions_full_invalid (g : Grid) (hfull : gridFull g)
    (hbad : ¬ conflictFree g) : nCompletions g = 0 := by
  rw [nCompletions, Finset.card_eq_zero, Finset.eq_empty_iff_forall_not_mem]
  intro f hf
  simp only [Finset.mem_filter, Finset.mem_univ, true_and] at hf
  have htog : toG f = g := funext fun r => funext fun c => hf.1 r c (hfull r c)
  have hcf : conflictFree (toG f) := hf.2
  rw [htog] at hcf
  exact hbad hcf

theorem isValid_of_completion (g : Grid) (f : Fin 9 → Fin 9 → Fin 9)
    (hf : isCompletion g f) (r c : Fin 9) (h0 : g r c = 0) :
    isValidForGrid g r c (toG f r c) = true := by
  rw [isValid_iff]
  intro q hq hc
  have h1 : toG f r c = (f r c).1 + 1 := rfl
  by_cases hqrc : q = (r, c)
  · rw [hqrc] at hc
    have hc2 : g r c = toG f r c := hc
    omega
  · have hnz : g q.1 q.2 ≠ 0 := by omega
    have heq : toG f q.1 q.2 = g q.1 q.2 := hf.1 q.1 q.2 hnz
    have hneq : toG f q.1 q.2 ≠ toG f r c :=
      hf.2 q (r, c) hqrc (sees_symm (r, c) q hq) (Nat.succ_ne_zero (f q.1 q.2).1)
        (Nat.succ_ne_zero (f r c).1)
    rw [heq, hc] at hneq
    exact hneq rfl

theorem completion_update_iff (g : Grid) (r c : Fin 9) (n : ℕ) (h0 : g r c = 0)
    (hn1 : 1 ≤ n) (f : Fin 9 → Fin 9 → Fin 9) :
    (isCompletion g f ∧ toG f r c = n) ↔ isCompletion (update g r c n) f := by
  constructor
  · rintro ⟨⟨hext, hcf⟩, heq⟩
    refine ⟨?_, hcf⟩
    intro r2 c2 hne
    by_cases hq : (r2, c2) = ((r, c) : Cell)
    · have hr2 : r2 = r := congrArg Prod.fst hq
      have hc2 : c2 = c := congrArg Prod.snd hq
      subst hr2; subst hc2
      rw [update_same]
      exact heq
    · have hu : update g r c n r2 c2 = g r2 c2 := update_ne g r c n (r2, c2) hq
      rw [hu]
      rw [hu] at hne
      exact hext r2 c2 hne
  · rintro ⟨hext, hcf⟩
    have hrc : toG f r c = n := by
      have := hext r c (by rw [update_same]; omega)
      rw [update_same] at this
      exact this
    refine ⟨⟨?_, hcf⟩, hrc⟩
    intro r2 c2 hne
    have hq : (r2, c2) ≠ ((r, c) : Cell) := by
      intro hc
      have hr2 : r2 = r := congrArg Prod.fst hc
      have hc2 : c2 = c := congrArg Prod.snd hc
      subst hr2; subst hc2
      exact hne h0
    have hu : update g r c n r2 c2 = g r2 c2 := update_ne g r c n (r2, c2) hq
    have := hext r2 c2 (by rw [hu]; exact hne)
    rw [hu] at this
    exact this

theorem fiber_card (g : Grid) (r c : Fin 9) (h0 : g r c = 0) (n : ℕ)
    (hn : n ∈ digits) :
    ((Finset.univ.filter fun f : Fin 9 → Fin 9 → Fin 9 => isCompletion g f).filter
        fun f => toG f r c = n).card =
      if isValidForGrid g r c n = true then nCompletions (update g r c n) else 0 := by
  have hn1 := (digits_bounds n hn).1
  by_cases hv : isValidForGrid g r c n = true
  · rw [if_pos hv]
    show _ = (Finset.univ.filter fun f : Fin 9 → Fin 9 → Fin 9 =>
      isCompletion (update g r c n) f).card
    apply congrArg Finset.card
    rw [Finset.filter_filter]
    apply Finset.filter_congr
    intro f _
    exact (completion_update_iff g r c n h0 hn1 f)
  · rw [if_neg hv, Finset.card_eq_zero, Finset.eq_empty_iff_forall_not_mem]
    intro f hf
    simp only [Finset.mem_filter, Finset.mem_univ, true_and] at hf
    have := isValid_of_completion g f hf.1 r c h0
    rw [hf.2] at this
    exact hv this

theorem nCompletions_split (g : Grid) (r c : Fin 9) (h0 : g r c = 0) :
    nCompletions g =
      (digits.map fun n =>
        if isValidForGrid g r c n = true then nCompletions (update g r c n)
        else 0).sum := by
  classical
  have hmem : ∀ f : Fin 9 → Fin 9 → Fin 9,
      f ∈ Finset.univ.filter (fun f => isCompletion g f) →
      toG f r c ∈ digits.toFinset := by
    intro f _
    apply List.mem_toFinset.2
    have hb : (f r c).1 < 9 := (f r c).2
    exact mem_digits_of_bounds _ (toG_pos f r c)
      (by have h1 : toG f r c = (f r c).1 + 1 := rfl; omega)
  refine (Finset.card_eq_sum_card_fiberwise hmem).trans ?_
  rw [List.sum_toFinset _ digits_nodup]
  apply congrArg List.sum
  apply List.map_congr_left
  intro n hn
  exact fiber_card g r c h0 n hn

theorem ecountTry_eq_sum (deeper : Grid → ℕ) (g : Grid) (r c : Fin 9)
    (nums : List ℕ) :
    ecountTry deeper g r c nums =
      (nums.map fun n =>
        if isValidForGrid g r c n = true then deeper (update g r c n)
        else 0).sum := by
  induction nums with
  | nil => rfl
  | cons n ns ih =>
    rw [ecountTry, ih, List.map_cons, List.sum_cons]

theorem ecount_eq_nCompletions (cells : List Cell) :
    ∀ g : Grid, gridOK g → (∀ p : Cell, p ∉ cells → g p.1 p.2 ≠ 0) →
      ecount cells g = nCompletions g := by
  induction cells with
  | nil =>
    intro g hok hcomp
    have hfull : gridFull g := fun r c => hcomp (r, c) (List.not_mem_nil _)
    rw [ecount]
    rw [nCompletions_full g hfull hok]
  | cons p rest ih =>
    intro g hok hcomp
    rcases p with ⟨r, c⟩
    rw [ecount]
    by_cases h : g r c = 0
    · rw [if_neg fun hn => hn h]
      rw [ecountTry_eq_sum, nCompletions_split g r c h]
      apply congrArg List.sum
      apply List.map_congr_left
      intro n hn
      by_cases hv : isValidForGrid g r c n = true
      · rw [if_pos hv, if_pos hv]
        apply ih
        · exact ⟨conflictFree_update g r c n hok.1 hv,
            inRange_update g r c n hok.2 (digits_bounds n hn).2⟩
        · intro q hq
          by_cases hqrc : q = ((r, c) : Cell)
          · have hr2 : q.1 = r := congrArg Prod.fst hqrc
            have hc2 : q.2 = c := congrArg Prod.snd hqrc
            rw [hr2, hc2, update_same]
            have := (digits_bounds n hn).1
            omega
          · rw [update_ne g r c n q hqrc]
            apply hcomp q
            intro hmem
            rcases List.mem_cons.1 hmem with hm | hm
            · exact hqrc hm
            · exact hq hm
      · rw [if_neg hv, if_neg hv]
    · rw [if_pos h]
      apply ih g hok
      intro q hq
      by_cases hqrc : q = ((r, c) : Cell)
      · have hr2 : q.1 = r := congrArg Prod.fst hqrc
        have hc2 : q.2 = c := congrArg Prod.snd hqrc
        rw [hr2, hc2]
        exact h
      · apply hcomp q
        intro hmem
        rcases List.mem_cons.1 hmem with hm | hm
        · exact hqrc hm
        · exact hq hm

theorem countSolutions_caps (g : Grid) (cap : ℕ) (hok : gridOK g) :
    (nCompletions g < cap → countSolutions g cap = nCompletions g) ∧
    (cap ≤ nCompletions g → cap ≤ countSolutions g cap) := by
  have hN : ecount allCells g = nCompletions g :=
    ecount_eq_nCompletions allCells g hok fun p hp => absurd (mem_allCells p) hp
  have := countRec_cap allCells cap g
  rw [hN] at this
  rw [countSolutions, copyAnyGrid_eq]
  exact this

theorem countSolutions_exact (g : Grid) (cap : ℕ) (hok : gridOK g)
    (hlt : countSolutions g cap < cap) :
    nCompletions g = countSolutions g cap := by
  have h := countSolutions_caps g cap hok
  by_cases hc : nCompletions g < cap
  · exact (h.1 hc).symm
  · have := h.2 (by omega)
    omega


/-! Candidate-store lemmas for the place operation. -/

theorem lookup_cons_pair (a k : Cell) (v : List ℕ) (l : Cands) :
    List.lookup a ((k, v) :: l) = if a = k then some v else List.lookup a l := by
  by_cases h : a = k
  · have hb : (a == k) = true := beq_iff_eq.2 h
    rw [if_pos h]
    simp [List.lookup, hb]
  · have hb : (a == k) = false := by simp [h]
    rw [if_neg h]
    simp [List.lookup, hb]

theorem lookup_filter_ne (p : Cell) (cands : Cands) :
    List.lookup p (cands.filter fun e => !(e.1 == p)) = none := by
  induction cands with
  | nil => rfl
  | cons e rest ih =>
    obtain ⟨k, v⟩ := e
    simp only [List.filter_cons]
    by_cases h : k = p
    · simp [h, ih]
    · have hb : (!((k, v).1 == p)) = true := by simp [h]
      rw [if_pos hb, lookup_cons_pair, if_neg (Ne.symm h)]
      exact ih

theorem lookup_map_key (p q : Cell) (cands : Cands) (f : List ℕ → List ℕ) :
    List.lookup q (cands.map fun e =>
        if e.1 = p then (e.1, f e.2) else e) =
      if q = p then (List.lookup q cands).map f else List.lookup q cands := by
  induction cands with
  | nil =>
    by_cases h : q = p
    · rw [if_pos h]; rfl
    · rw [if_neg h]; rfl
  | cons e rest ih =>
    obtain ⟨k, v⟩ := e
    rw [List.map_cons]
    by_cases he : (k, v).1 = p
    · rw [if_pos he, lookup_cons_pair, lookup_cons_pair]
      have hek : k = p := he
      by_cases hq : q = k
      · have hqp : q = p := hq.trans he
        simp [hq, hqp, hek]
      · have hqp : ¬ q = p := fun hc => hq (hc.trans he.symm)
        simp [hq, hqp, ih]
    · rw [if_neg he, lookup_cons_pair, lookup_cons_pair]
      have hek : ¬ k = p := he
      by_cases hq : q = k
      · have hqp : ¬ q = p := fun hc => he (hq.symm.trans hc)
        simp [hq, hqp, hek]
      · simp [hq, ih]

theorem eliminate_lookup (cands : Cands) (r c : Fin 9) (num : ℕ) (q : Cell) :
    List.lookup q (eliminate cands r c num).2 =
      if q = ((r, c) : Cell) then
        (List.lookup q cands).map (List.filter fun d => d != num)
      else List.lookup q cands := by
  rw [eliminate]
  cases hl : cands.lookup ((r, c) : Cell) with
  | none =>
    by_cases h : q = ((r, c) : Cell)
    · rw [if_pos h]
      rw [h, hl]
      rfl
    · rw [if_neg h]
  | some ds =>
    exact lookup_map_key ((r, c) : Cell) q cands _

theorem noNum_eliminate (cands : Cands) (r c : Fin 9) (num : ℕ) (q : Cell)
    (hq : ∀ ds : List ℕ, List.lookup q cands = some ds → num ∉ ds) :
    ∀ ds : List ℕ, List.lookup q (eliminate cands r c num).2 = some ds →
      num ∉ ds := by
  intro ds hds
  rw [eliminate_lookup] at hds
  by_cases h : q = ((r, c) : Cell)
  · rw [if_pos h] at hds
    cases hl : List.lookup q cands with
    | none => rw [hl] at hds; exact absurd hds (by simp)
    | some ds0 =>
      rw [hl] at hds
      have hds2 : ds0.filter (fun d => d != num) = ds := by simpa using hds
      intro hmem
      rw [← hds2] at hmem
      have := List.of_mem_filter hmem
      simp only [bne_self_eq_false] at this
      exact Bool.false_ne_true this
  · rw [if_neg h] at hds
    exact hq ds hds

theorem noNum_eliminate_self (cands : Cands) (r c : Fin 9) (num : ℕ) :
    ∀ ds : List ℕ,
      List.lookup ((r, c) : Cell) (eliminate cands r c num).2 = some ds →
      num ∉ ds := by
  intro ds hds
  rw [eliminate_lookup, if_pos rfl] at hds
  cases hl : List.lookup ((r, c) : Cell) cands with
  | none => rw [hl] at hds; exact absurd hds (by simp)
  | some ds0 =>
    rw [hl] at hds
    have hds2 : ds0.filter (fun d => d != num) = ds := by simpa using hds
    intro hmem
    rw [← hds2] at hmem
    have := List.of_mem_filter hmem
    simp only [bne_self_eq_false] at this
    exact Bool.false_ne_true this

theorem elimFold_lookup_notmem (num : ℕ) :
    ∀ (l : List Cell) (cands : Cands) (q : Cell), q ∉ l →
      List.lookup q (l.foldl (fun cs p => (eliminate cs p.1 p.2 num).2) cands)
        = List.lookup q cands := by
  intro l
  induction l with
  | nil => intro cands q _; rfl
  | cons p rest ih =>
    intro cands q hq
    rw [List.foldl_cons]
    rw [ih _ q (fun hm => hq (List.mem_cons_of_mem p hm))]
    rw [eliminate_lookup]
    rw [if_neg]
    intro hc
    exact hq (by rw [hc]; exact List.mem_cons_self p rest)

theorem elimFold_noNum (num : ℕ) :
    ∀ (l : List Cell) (cands : Cands) (q : Cell),
      (q ∈ l ∨ (∀ ds : List ℕ, List.lookup q cands = some ds → num ∉ ds)) →
      ∀ ds : List ℕ,
        List.lookup q (l.foldl (fun cs p => (eliminate cs p.1 p.2 num).2) cands)
          = some ds → num ∉ ds := by
  intro l
  induction l with
  | nil =>
    intro cands q hq ds hds
    rcases hq with hq | hq
    · exact absurd hq (List.not_mem_nil q)
    · exact hq ds hds
  | cons p rest ih =>
    intro cands q hq ds hds
    rw [List.foldl_cons] at hds
    rcases hq with hq | hq
    · rcases List.mem_cons.1 hq with hq1 | hq2
      · by_cases hqr : q ∈ rest
        · exact ih _ q (Or.inl hqr) ds hds
        · apply ih _ q (Or.inr ?_) ds hds
          intro ds2 hds2
          rw [hq1] at hds2
          exact noNum_eliminate_self cands p.1 p.2 num ds2 hds2
      · exact ih _ q (Or.inl hq2) ds hds
    · apply ih _ q (Or.inr ?_) ds hds
      exact noNum_eliminate cands p.1 p.2 num q hq

theorem mem_getPeers_ne (r c : Fin 9) (p : Cell) (hp : p ∈ getPeers r c) :
    p ≠ ((r, c) : Cell) := by
  rw [getPeers] at hp
  simp only [List.mem_append] at hp
  rcases hp with (h | h) | h
  · simp only [List.mem_map, List.mem_filter] at h
    obtain ⟨x, hx, rfl⟩ := h
    intro hc
    have : x = c := congrArg Prod.snd hc
    simp only [decide_eq_true_eq] at hx
    exact hx.2 this
  · simp only [List.mem_map, List.mem_filter] at h
    obtain ⟨x, hx, rfl⟩ := h
    intro hc
    have : x = r := congrArg Prod.fst hc
    simp only [decide_eq_true_eq] at hx
    exact hx.2 this
  · have := List.of_mem_filter h
    simp only [decide_eq_true_eq] at this
    exact this.1

/-! Serialization lemmas. -/

theorem allCells_get (r c : Fin 9) :
    allCells.get? (9 * r.1 + c.1) = some (r, c) := by
  revert r c
  decide

theorem parse_digitChar_small (v : ℕ) (hv : v < 10) :
    parseDigitChar (Nat.digitChar v) = v := by
  revert hv
  revert v
  decide

theorem parseDigitChar_le (ch : Char) : parseDigitChar ch ≤ 9 := by
  rw [parseDigitChar]
  by_cases h : 49 ≤ ch.toNat ∧ ch.toNat ≤ 57
  · rw [if_pos h]; omega
  · rw [if_neg h]; omega

theorem stringToGrid_le (s : List Char) (r c : Fin 9) :
    stringToGrid s r c ≤ 9 := by
  show (match s.get? (9 * r.1 + c.1) with
    | some ch => parseDigitChar ch
    | none => 0) ≤ 9
  cases s.get? (9 * r.1 + c.1) with
  | none => exact Nat.zero_le 9
  | some ch => exact parseDigitChar_le ch

theorem stringToGrid_gridToString (g : Grid) (h : ∀ r c : Fin 9, g r c ≤ 9) :
    stringToGrid (gridToString g) = g := by
  funext r c
  have hidx : (gridToString g).get? (9 * r.1 + c.1) =
      some (Nat.digitChar (g r c)) := by
    rw [gridToString, List.get?_map, allCells_get r c]
    rfl
  show (match (gridToString g).get? (9 * r.1 + c.1) with
    | some ch => parseDigitChar ch
    | none => 0) = g r c
  rw [hidx]
  exact parse_digitChar_small (g r c) (by have := h r c; omega)

/-! Claim theorems settled so far. -/

/-- C4, counterexample: the claim "countSolutions returns exactly N when
N < k and exactly k when N ≥ k" fails as stated.  On `gOver` (four
completions) the call with cap 2 returns 3, not 2; and on the full but
conflicting grid `gFullBad` (zero completions) it returns 1, not 0. -/
theorem c4_counterexample :
    (2 ≤ nCompletions gOver ∧ countSolutions gOver 2 ≠ 2) ∧
    (nCompletions gFullBad = 0 ∧ countSolutions gFullBad 2 = 1) := by
  constructor
  · have h3 : countSolutions gOver 2 = 3 := by decide
    have h4 : countSolutions gOver 10 = 4 := by decide
    have hok : gridOK gOver := by decide
    have hN : nCompletions gOver = 4 := by
      have := countSolutions_exact gOver 10 hok (by omega)
      omega
    exact ⟨by omega, by omega⟩
  · exact ⟨nCompletions_full_invalid gFullBad (by decide) (by decide), by decide⟩

/-- C4, amended: for every 9x9 grid with entries 0..9 whose nonzero
entries are free of row/column/box conflicts, and every cap, countSolutions
returns exactly the number N of distinct full completions whenever N is
below the cap (in particular 0, without throwing, for an unsolvable grid),
and returns at least the cap (possibly more than it) whenever N reaches
the cap. -/
theorem c4_count_cap_behaviour (g : Grid) (cap : ℕ) (hok : gridOK g) :
    (nCompletions g < cap → countSolutions g cap = nCompletions g) ∧
    (cap ≤ nCompletions g → cap ≤ countSolutions g cap) :=
  countSolutions_caps g cap hok

/-- Witness for C4 at a concrete uniquely-completable grid and cap 2. -/
theorem c4_count_cap_witness :
    gridOK gW ∧
    ((nCompletions gW < 2 → countSolutions gW 2 = nCompletions gW) ∧
      (2 ≤ nCompletions gW → 2 ≤ countSolutions gW 2)) :=
  ⟨by decide, c4_count_cap_behaviour gW 2 (by decide)⟩

/-- C8: converting a grid (entries 0..9) to its 81-character row-major
string and parsing it back yields the original grid; position i of the
string corresponds to cell (i / 9, i mod 9), with 0 denoting empty. -/
theorem c8_string_roundtrip (g : Grid) (h : ∀ r c : Fin 9, g r c ≤ 9) :
    stringToGrid (gridToString g) = g :=
  stringToGrid_gridToString g h

/-- Witness for C8 on the concrete grid `gBase`. -/
theorem c8_string_roundtrip_witness :
    (∀ r c : Fin 9, gBase r c ≤ 9) ∧
      stringToGrid (gridToString gBase) = gBase :=
  ⟨by decide, c8_string_roundtrip gBase (by decide)⟩

/-- C10: the board-string parser is total on any 81-character string:
every cell parses to a value 0..9, every character outside ASCII '1'..'9'
(letters, symbols and '0' alike) parses to 0, and the inline parsing loop
of verifyPuzzleUniqueness computes exactly stringToGrid of its input. -/
theorem c10_parser_total (s : List Char) (hlen : s.length = 81) (r c : Fin 9) :
    stringToGrid s r c ≤ 9 ∧
    (∀ ch : Char, s.get? (9 * r.1 + c.1) = some ch →
      ¬(49 ≤ ch.toNat ∧ ch.toNat ≤ 57) → stringToGrid s r c = 0) ∧
    verifyPuzzleUniqueness s =
      (countSolutions (stringToGrid s) 3 == 1, countSolutions (stringToGrid s) 3) := by
  refine ⟨stringToGrid_le s r c, ?_, rfl⟩
  intro ch hch hnd
  show (match s.get? (9 * r.1 + c.1) with
    | some ch2 => parseDigitChar ch2
    | none => 0) = 0
  rw [hch]
  show parseDigitChar ch = 0
  rw [parseDigitChar, if_neg hnd]

/-- Witness for C10 on a concrete malformed 81-character string. -/
theorem c10_parser_total_witness :
    sMalformed.length = 81 ∧
    (stringToGrid sMalformed 0 1 ≤ 9 ∧
      (∀ ch : Char, sMalformed.get? (9 * (0 : Fin 9).1 + (1 : Fin 9).1) = some ch →
        ¬(49 ≤ ch.toNat ∧ ch.toNat ≤ 57) → stringToGrid sMalformed 0 1 = 0) ∧
      verifyPuzzleUniqueness sMalformed =
        (countSolutions (stringToGrid sMalformed) 3 == 1,
          countSolutions (stringToGrid sMalformed) 3)) :=
  ⟨by decide, c10_parser_total sMalformed (by decide) 0 1⟩

/-- C9: the candidate-store place operation is total and unchecked: for
every grid, store, cell and number (valid at that cell or not) it returns
true, writes the number into the cell, deletes the cell's own candidate
entry, and removes the number from every peer's candidate set. -/
theorem c9_place_total (g : Grid) (cands : Cands) (r c : Fin 9) (num : ℕ) :
    (place g cands r c num).1 = true ∧
    (place g cands r c num).2.1 r c = num ∧
    List.lookup ((r, c) : Cell) (place g cands r c num).2.2 = none ∧
    (∀ p : Cell, p ∈ getPeers r c → ∀ ds : List ℕ,
      List.lookup p (place g cands r c num).2.2 = some ds → num ∉ ds) := by
  refine ⟨rfl, update_same g r c num, ?_, ?_⟩
  · show List.lookup ((r, c) : Cell)
      ((getPeers r c).foldl (fun cs p => (eliminate cs p.1 p.2 num).2)
        (cands.filter fun e => !(e.1 == ((r, c) : Cell)))) = none
    rw [elimFold_lookup_notmem num (getPeers r c) _ ((r, c) : Cell)
      (fun hm => (mem_getPeers_ne r c _ hm) rfl)]
    exact lookup_filter_ne ((r, c) : Cell) cands
  · intro p hp ds hds
    exact elimFold_noNum num (getPeers r c) _ p (Or.inl hp) ds hds


/-! Concrete evaluation of the capped solve loops on `gC6`.  Forcing the
whole computation at once nests too many lazy list layers, so the
candidate construction is evaluated row by row and the loop iteration by
iteration, against precomputed stores, and the pieces are chained. -/

theorem elimGivens_append (g : Grid) (l1 l2 : List Cell) (cs : Cands) :
    elimGivens g (l1 ++ l2) cs = elimGivens g l2 (elimGivens g l1 cs) := by
  simp [elimGivens, List.foldl_append]

theorem allCells_rows :
    allCells = cellsInRow 0 ++ cellsInRow 1 ++ cellsInRow 2 ++ cellsInRow 3 ++
      cellsInRow 4 ++ cellsInRow 5 ++ cellsInRow 6 ++ cellsInRow 7 ++
      cellsInRow 8 := by decide

theorem opt_eq_some_of {α : Type} (o : Option α) (d x : α) (h1 : o.getD d = x)
    (h2 : o.isSome = true) : o = some x := by
  cases o with
  | none => exact absurd h2 (by simp)
  | some y => simpa using congrArg some h1

theorem solveLoop_succ_step (m fuel : ℕ) (st st2 : SolveState)
    (hne : ¬ countEmptyCells st.grid = 0)
    (hstep : stepGo m st techList = some st2) :
    solveLoop m (fuel + 1) st = solveLoop m fuel st2 := by
  rw [solveLoop, if_neg hne, hstep]

theorem solveLoop_succ_none (m fuel : ℕ) (st : SolveState)
    (hstep : stepGo m st techList = none) :
    solveLoop m (fuel + 1) st = st := by
  rw [solveLoop]
  by_cases h : countEmptyCells st.grid = 0
  · rw [if_pos h]
  · rw [if_neg h, hstep]

/-- `solveHuman` with a technique cap, unfolded to its loop (the clone is
definitionally the grid itself). -/
theorem solveHuman_some_unfold (g : Grid) (t : Technique) (cs : Cands)
    (hcs : buildCandidates g = cs) :
    solveHuman g (some t) =
      ⟨countEmptyCells
          (solveLoop (techOrder t) 1000 ⟨g, cs, zeroCounts, none, 0⟩).grid == 0,
       (solveLoop (techOrder t) 1000 ⟨g, cs, zeroCounts, none, 0⟩).steps,
       (solveLoop (techOrder t) 1000 ⟨g, cs, zeroCounts, none, 0⟩).hardest,
       (solveLoop (techOrder t) 1000 ⟨g, cs, zeroCounts, none, 0⟩).counts,
       (findNakedSingles g cs).length + (findHiddenSingles g cs).length⟩ := by
  subst hcs
  rfl


/-- The initial candidate pass on `gC6`, evaluated. -/
theorem c6i_eq : initCands gC6 = c6i := by decide

/-- Given-elimination over row 0 of `gC6`, evaluated. -/
theorem c6e0 : elimGivens gC6 (cellsInRow 0) c6i = c6s0 := by decide

/-- Given-elimination over row 1 of `gC6`, evaluated. -/
theorem c6e1 : elimGivens gC6 (cellsInRow 1) c6s0 = c6s1 := by decide

/-- Given-elimination over row 2 of `gC6`, evaluated. -/
theorem c6e2 : elimGivens gC6 (cellsInRow 2) c6s1 = c6s2 := by decide

/-- Given-elimination over row 3 of `gC6`, evaluated. -/
theorem c6e3 : elimGivens gC6 (cellsInRow 3) c6s2 = c6s3 := by decide

/-- Given-elimination over row 4 of `gC6`, evaluated. -/
theorem c6e4 : elimGivens gC6 (cellsInRow 4) c6s3 = c6s4 := by decide

/-- Given-elimination over row 5 of `gC6`, evaluated. -/
theorem c6e5 : elimGivens gC6 (cellsInRow 5) c6s4 = c6s5 := by decide

/-- Given-elimination over row 6 of `gC6`, evaluated. -/
theorem c6e6 : elimGivens gC6 (cellsInRow 6) c6s5 = c6s6 := by decide

/-- Given-elimination over row 7 of `gC6`, evaluated. -/
theorem c6e7 : elimGivens gC6 (cellsInRow 7) c6s6 = c6s7 := by decide

/-- Given-elimination over row 8 of `gC6`, evaluated. -/
theorem c6e8 : elimGivens gC6 (cellsInRow 8) c6s7 = c6s8 := by decide

/-- Iteration 0 of the capped solve loop on `gC6`. -/
theorem c6aGo0 : stepGo (techOrder Technique.HiddenSingle) c6St0 techList = some c6aSt1 :=
  opt_eq_some_of _ c6St0 _ (by decide) (by decide)

/-- Iteration 1 of the capped solve loop on `gC6`. -/
theorem c6aGo1 : stepGo (techOrder Technique.HiddenSingle) c6aSt1 techList = some c6aSt2 :=
  opt_eq_some_of _ c6aSt1 _ (by decide) (by decide)

/-- Iteration 2 of the capped solve loop on `gC6`. -/
theorem c6aGo2 : stepGo (techOrder Technique.HiddenSingle) c6aSt2 techList = some c6aSt3 :=
  opt_eq_some_of _ c6aSt2 _ (by decide) (by decide)

/-- The capped solve loop on `gC6` reaches its fixpoint. -/
theorem c6aStall : stepGo (techOrder Technique.HiddenSingle) c6aSt3 techList = none := by decide

/-- The whole capped solve loop on `gC6`, by chaining the iterations. -/
theorem c6aLoop : solveLoop (techOrder Technique.HiddenSingle) 1000 c6St0 = c6aSt3 :=
  ((solveLoop_succ_step (techOrder Technique.HiddenSingle) 999 c6St0 c6aSt1 (by decide) c6aGo0).trans
  ((solveLoop_succ_step (techOrder Technique.HiddenSingle) 998 c6aSt1 c6aSt2 (by decide) c6aGo1).trans
  ((solveLoop_succ_step (techOrder Technique.HiddenSingle) 997 c6aSt2 c6aSt3 (by decide) c6aGo2).trans
  (solveLoop_succ_none (techOrder Technique.HiddenSingle) 996 c6aSt3 c6aStall))))

/-- Iteration 0 of the capped solve loop on `gC6`. -/
theorem c6bGo0 : stepGo (techOrder Technique.LockedCandidate) c6St0 techList = some c6bSt1 :=
  opt_eq_some_of _ c6St0 _ (by decide) (by decide)

/-- Iteration 1 of the capped solve loop on `gC6`. -/
theorem c6bGo1 : stepGo (techOrder Technique.LockedCandidate) c6bSt1 techList = some c6bSt2 :=
  opt_eq_some_of _ c6bSt1 _ (by decide) (by decide)

/-- Iteration 2 of the capped solve loop on `gC6`. -/
theorem c6bGo2 : stepGo (techOrder Technique.LockedCandidate) c6bSt2 techList = some c6bSt3 :=
  opt_eq_some_of _ c6bSt2 _ (by decide) (by decide)

/-- Iteration 3 of the capped solve loop on `gC6`. -/
theorem c6bGo3 : stepGo (techOrder Technique.LockedCandidate) c6bSt3 techList = some c6bSt4 :=
  opt_eq_some_of _ c6bSt3 _ (by decide) (by decide)

/-- The capped solve loop on `gC6` reaches its fixpoint. -/
theorem c6bStall : stepGo (techOrder Technique.LockedCandidate) c6bSt4 techList = none := by decide

/-- The whole capped solve loop on `gC6`, by chaining the iterations. -/
theorem c6bLoop : solveLoop (techOrder Technique.LockedCandidate) 1000 c6St0 = c6bSt4 :=
  ((solveLoop_succ_step (techOrder Technique.LockedCandidate) 999 c6St0 c6bSt1 (by decide) c6bGo0).trans
  ((solveLoop_succ_step (techOrder Technique.LockedCandidate) 998 c6bSt1 c6bSt2 (by decide) c6bGo1).trans
  ((solveLoop_succ_step (techOrder Technique.LockedCandidate) 997 c6bSt2 c6bSt3 (by decide) c6bGo2).trans
  ((solveLoop_succ_step (techOrder Technique.LockedCandidate) 996 c6bSt3 c6bSt4 (by decide) c6bGo3).trans
  (solveLoop_succ_none (techOrder Technique.LockedCandidate) 995 c6bSt4 c6bStall)))))

/-- The candidate store built on `gC6`, assembled from the row passes. -/
theorem c6build : buildCandidates gC6 = c6s8 := by
  show elimGivens gC6 allCells (initCands gC6) = c6s8
  rw [c6i_eq, allCells_rows]
  rw [elimGivens_append, elimGivens_append, elimGivens_append,
    elimGivens_append, elimGivens_append, elimGivens_append,
    elimGivens_append, elimGivens_append]
  rw [c6e0, c6e1, c6e2, c6e3, c6e4, c6e5, c6e6, c6e7, c6e8]

/-- The HiddenSingle-capped solve of `gC6` reports hardest = HiddenSingle. -/
theorem c6a_hardest :
    (solveHuman gC6 (some Technique.HiddenSingle)).hardest
      = some Technique.HiddenSingle := by
  rw [solveHuman_some_unfold gC6 Technique.HiddenSingle c6s8 c6build]
  show (solveLoop (techOrder Technique.HiddenSingle) 1000 c6St0).hardest = _
  rw [c6aLoop]
  rfl

/-- The LockedCandidate-capped solve of `gC6` reports hardest =
LockedCandidate. -/
theorem c6b_hardest :
    (solveHuman gC6 (some Technique.LockedCandidate)).hardest
      = some Technique.LockedCandidate := by
  rw [solveHuman_some_unfold gC6 Technique.LockedCandidate c6s8 c6build]
  show (solveLoop (techOrder Technique.LockedCandidate) 1000 c6St0).hardest = _
  rw [c6bLoop]
  rfl


/-! Monotonicity of the solve loop in the technique cap.  The technique
list is scanned in ascending TECHNIQUE_ORDER, so a step taken under a low
cap is taken identically under any higher cap; the hardest-technique field
only ever rises along a run and never beyond the cap. -/

/-- `techList` is sorted by TECHNIQUE_ORDER. -/
theorem techList_sorted :
    List.Pairwise (fun a b => techOrder a ≤ techOrder b) techList := by decide

/-- Every technique has positive order. -/
theorem techOrder_pos (t : Technique) : 0 < techOrder t := by
  cases t <;> decide

/-- `isHarderThan (some a) b` says exactly that `a`'s order exceeds the
rank of `b`. -/
theorem isHarderThan_some_iff (a : Technique) (b : Option Technique) :
    isHarderThan (some a) b = true ↔ hOrd b < techOrder a := by
  cases b with
  | none => simpa [isHarderThan, hOrd] using techOrder_pos a
  | some u => simp [isHarderThan, hOrd]

/-- A scan in which every technique exceeds the cap reports no progress. -/
theorem stepGo_none_of_gt (m : ℕ) (st : SolveState) (ts : List Technique)
    (h : ∀ t ∈ ts, m < techOrder t) : stepGo m st ts = none := by
  induction ts with
  | nil => rfl
  | cons t ts ih =>
    rw [stepGo, if_neg (Nat.not_le.2 (h t (List.mem_cons_self t ts)))]
    exact ih fun u hu => h u (List.mem_cons_of_mem t hu)

/-- A step taken under a low cap is taken identically under a higher cap,
for any scan list sorted by technique order. -/
theorem stepGo_mono (lo hi : ℕ) (hle : lo ≤ hi) (st st2 : SolveState)
    (ts : List Technique)
    (hsort : List.Pairwise (fun a b => techOrder a ≤ techOrder b) ts)
    (h : stepGo lo st ts = some st2) : stepGo hi st ts = some st2 := by
  induction ts with
  | nil => exact absurd h (by simp [stepGo])
  | cons t ts ih =>
    obtain ⟨hts, hp⟩ := List.pairwise_cons.1 hsort
    by_cases hlo : techOrder t ≤ lo
    · rw [stepGo, if_pos hlo] at h
      rw [stepGo, if_pos (le_trans hlo hle)]
      dsimp only at h ⊢
      by_cases hfs : (techFind t st.grid st.cands).isEmpty
      · rw [if_pos hfs] at h
        rw [if_pos hfs]
        exact ih hp h
      · rw [if_neg hfs] at h
        rw [if_neg hfs]
        exact h
    · rw [stepGo, if_neg hlo] at h
      have hnone : stepGo lo st ts = none :=
        stepGo_none_of_gt lo st ts fun u hu =>
          lt_of_lt_of_le (Nat.not_le.1 hlo) (hts u hu)
      exact Option.noConfusion (h.symm.trans hnone)

/-- The hardest field after one applied finding. -/
theorem applyOne_hardest (t : Technique) (st : SolveState) (f : Cell × ℕ) :
    (applyOne t st f).hardest =
      if isHarderThan (some t) st.hardest then some t else st.hardest := by
  unfold applyOne
  cases hp : isPlacement t <;> simp [hp]

/-- Applying a finding never lowers the hardest rank. -/
theorem applyOne_hOrd (t : Technique) (st : SolveState) (f : Cell × ℕ) :
    hOrd st.hardest ≤ hOrd (applyOne t st f).hardest := by
  rw [applyOne_hardest]
  by_cases h : isHarderThan (some t) st.hardest = true
  · rw [if_pos h]
    exact le_of_lt ((isHarderThan_some_iff t st.hardest).1 h)
  · rw [if_neg h]

/-- Applying a finding of a capped technique keeps the hardest rank within
the cap. -/
theorem applyOne_cap (t : Technique) (st : SolveState) (f : Cell × ℕ) (m : ℕ)
    (ht : techOrder t ≤ m) (hst : hOrd st.hardest ≤ m) :
    hOrd (applyOne t st f).hardest ≤ m := by
  rw [applyOne_hardest]
  by_cases h : isHarderThan (some t) st.hardest = true
  · rw [if_pos h]
    exact ht
  · rw [if_neg h]
    exact hst

/-- Folding a batch of findings never lowers the hardest rank. -/
theorem foldl_applyOne_hOrd (t : Technique) (fs : List (Cell × ℕ))
    (st : SolveState) :
    hOrd st.hardest ≤ hOrd (fs.foldl (applyOne t) st).hardest := by
  induction fs generalizing st with
  | nil => exact le_refl _
  | cons f fs ih => exact le_trans (applyOne_hOrd t st f) (ih _)

/-- Folding a batch of findings of a capped technique keeps the hardest
rank within the cap. -/
theorem foldl_applyOne_cap (t : Technique) (fs : List (Cell × ℕ))
    (st : SolveState) (m : ℕ) (ht : techOrder t ≤ m)
    (hst : hOrd st.hardest ≤ m) :
    hOrd (fs.foldl (applyOne t) st).hardest ≤ m := by
  induction fs generalizing st with
  | nil => exact hst
  | cons f fs ih => exact ih _ (applyOne_cap t st f m ht hst)

/-- One progressing pass never lowers the hardest rank. -/
theorem stepGo_hOrd (m : ℕ) (st st2 : SolveState) (ts : List Technique)
    (h : stepGo m st ts = some st2) :
    hOrd st.hardest ≤ hOrd st2.hardest := by
  induction ts with
  | nil => exact absurd h (by simp [stepGo])
  | cons t ts ih =>
    rw [stepGo] at h
    by_cases hm : techOrder t ≤ m
    · rw [if_pos hm] at h
      dsimp only at h
      by_cases hfs : (techFind t st.grid st.cands).isEmpty
      · rw [if_pos hfs] at h
        exact ih h
      · rw [if_neg hfs] at h
        cases h
        exact foldl_applyOne_hOrd t _ st
    · rw [if_neg hm] at h
      exact ih h

/-- One progressing pass keeps the hardest rank within the cap. -/
theorem stepGo_cap (m : ℕ) (st st2 : SolveState) (ts : List Technique)
    (hst : hOrd st.hardest ≤ m) (h : stepGo m st ts = some st2) :
    hOrd st2.hardest ≤ m := by
  induction ts with
  | nil => exact absurd h (by simp [stepGo])
  | cons t ts ih =>
    rw [stepGo] at h
    by_cases hm : techOrder t ≤ m
    · rw [if_pos hm] at h
      dsimp only at h
      by_cases hfs : (techFind t st.grid st.cands).isEmpty
      · rw [if_pos hfs] at h
        exact ih h
      · rw [if_neg hfs] at h
        cases h
        exact foldl_applyOne_cap t _ st m hm hst
    · rw [if_neg hm] at h
      exact ih h

/-- The solve loop never lowers the hardest rank. -/
theorem solveLoop_hOrd (m fuel : ℕ) (st : SolveState) :
    hOrd st.hardest ≤ hOrd (solveLoop m fuel st).hardest := by
  induction fuel generalizing st with
  | zero => exact le_refl _
  | succ fuel ih =>
    rw [solveLoop]
    by_cases he : countEmptyCells st.grid = 0
    · rw [if_pos he]
    · rw [if_neg he]
      cases hgo : stepGo m st techList with
      | none => exact le_refl _
      | some st2 => exact le_trans (stepGo_hOrd m st st2 techList hgo) (ih st2)

/-- The solve loop keeps the hardest rank within the cap. -/
theorem solveLoop_cap (m fuel : ℕ) (st : SolveState)
    (hst : hOrd st.hardest ≤ m) :
    hOrd (solveLoop m fuel st).hardest ≤ m := by
  induction fuel generalizing st with
  | zero => exact hst
  | succ fuel ih =>
    rw [solveLoop]
    by_cases he : countEmptyCells st.grid = 0
    · rw [if_pos he]
      exact hst
    · rw [if_neg he]
      cases hgo : stepGo m st techList with
      | none => exact hst
      | some st2 => exact ih st2 (stepGo_cap m st st2 techList hst hgo)

/-- If the low-cap run finishes with a full grid, the high-cap run is the
very same run. -/
theorem solveLoop_solved_eq (lo hi fuel : ℕ) (hle : lo ≤ hi)
    (st : SolveState)
    (hs : countEmptyCells (solveLoop lo fuel st).grid = 0) :
    solveLoop hi fuel st = solveLoop lo fuel st := by
  induction fuel generalizing st with
  | zero => rfl
  | succ fuel ih =>
    by_cases he : countEmptyCells st.grid = 0
    · have h1 : solveLoop hi (fuel + 1) st = st := by rw [solveLoop, if_pos he]
      have h2 : solveLoop lo (fuel + 1) st = st := by rw [solveLoop, if_pos he]
      rw [h1, h2]
    · cases hgo : stepGo lo st techList with
      | none =>
        rw [solveLoop_succ_none lo fuel st hgo] at hs
        exact absurd hs he
      | some st2 =>
        have h2 := solveLoop_succ_step lo fuel st st2 he hgo
        have h1 := solveLoop_succ_step hi fuel st st2 he
          (stepGo_mono lo hi hle st st2 techList techList_sorted hgo)
        rw [h2] at hs
        rw [h1, h2, ih st2 hs]

/-- Raising the cap never lowers the hardest rank of the run. -/
theorem solveLoop_hOrd_mono (lo hi fuel : ℕ) (hle : lo ≤ hi)
    (st : SolveState) :
    hOrd (solveLoop lo fuel st).hardest ≤
      hOrd (solveLoop hi fuel st).hardest := by
  induction fuel generalizing st with
  | zero => exact le_refl _
  | succ fuel ih =>
    by_cases he : countEmptyCells st.grid = 0
    · have h1 : solveLoop hi (fuel + 1) st = st := by rw [solveLoop, if_pos he]
      have h2 : solveLoop lo (fuel + 1) st = st := by rw [solveLoop, if_pos he]
      rw [h1, h2]
    · cases hgo : stepGo lo st techList with
      | none =>
        rw [solveLoop_succ_none lo fuel st hgo]
        exact solveLoop_hOrd hi (fuel + 1) st
      | some st2 =>
        rw [solveLoop_succ_step lo fuel st st2 he hgo,
          solveLoop_succ_step hi fuel st st2 he
            (stepGo_mono lo hi hle st st2 techList techList_sorted hgo)]
        exact ih st2

/-- `solveHuman` without a cap, unfolded to its loop. -/
theorem solveHuman_none_unfold (g : Grid) (cs : Cands)
    (hcs : buildCandidates g = cs) :
    solveHuman g none =
      ⟨countEmptyCells
          (solveLoop 999 1000 ⟨g, cs, zeroCounts, none, 0⟩).grid == 0,
       (solveLoop 999 1000 ⟨g, cs, zeroCounts, none, 0⟩).steps,
       (solveLoop 999 1000 ⟨g, cs, zeroCounts, none, 0⟩).hardest,
       (solveLoop 999 1000 ⟨g, cs, zeroCounts, none, 0⟩).counts,
       (findNakedSingles g cs).length + (findHiddenSingles g cs).length⟩ := by
  subst hcs
  rfl


/-- C5: counterexample to the claimed weights 1..9.  A report consisting
of a single hidden single scores 1 under the source's TECHNIQUE_WEIGHTS
(1,1,2,3,3,4,4,5,6), while the claimed ascending weights (HiddenSingle=2)
would score it 2. -/
theorem c5_counterexample :
    (toRating ⟨true, 1, some Technique.HiddenSingle,
        ⟨0, 1, 0, 0, 0, 0, 0, 0, 0⟩, 0⟩).score = 1 ∧
    techList.foldl
        (fun s t => s + specWeight t *
          Counts.get ⟨0, 1, 0, 0, 0, 0, 0, 0, 0⟩ t) 0 = 2 := by
  decide

/-- C5(amended): for every SolveReport, toRating's score is the sum over
the nine techniques of (fixed weight x usage count), where the fixed
weights are those of TECHNIQUE_WEIGHTS: NakedSingle=1, HiddenSingle=1,
LockedCandidate=2, NakedPair=3, HiddenPair=3, NakedTriple=4,
HiddenTriple=4, XWing=5, XYWing=6. -/
theorem c5_weighted_score (report : SolveReport) :
    (toRating report).score =
      1 * report.counts.nakedSingle + 1 * report.counts.hiddenSingle +
      2 * report.counts.lockedCandidate + 3 * report.counts.nakedPair +
      3 * report.counts.hiddenPair + 4 * report.counts.nakedTriple +
      4 * report.counts.hiddenTriple + 5 * report.counts.xWing +
      6 * report.counts.xyWing := by
  rcases report with ⟨s, st, h, ⟨a1, a2, a3, a4, a5, a6, a7, a8, a9⟩, i⟩
  simp [toRating, techList, techWeight, Counts.get]

/-- C6: counterexample to the claimed direction of technique monotonicity.
On `gC6`, the run capped at HiddenSingle reports hardest = HiddenSingle,
while the run capped at the (weightier) LockedCandidate reports hardest =
LockedCandidate: the higher cap reports a strictly harder hardest
technique. -/
theorem c6_counterexample :
    (solveHuman gC6 (some Technique.HiddenSingle)).hardest
        = some Technique.HiddenSingle ∧
    (solveHuman gC6 (some Technique.LockedCandidate)).hardest
        = some Technique.LockedCandidate ∧
    isHarderThan (solveHuman gC6 (some Technique.LockedCandidate)).hardest
        (solveHuman gC6 (some Technique.HiddenSingle)).hardest = true := by
  refine ⟨c6a_hardest, c6b_hardest, ?_⟩
  rw [c6a_hardest, c6b_hardest]
  decide

/-- C6(amended): monotonicity holds in the opposite direction: for caps
lo ≤ hi (in technique order), the hi-capped run's hardest technique is
never softer than the lo-capped run's, and if the lo-capped run solves
the grid then the hi-capped run is the very same run (in particular it
also reports solved = true). -/
theorem c6_cap_monotone (g : Grid) (tlo thi : Technique)
    (hle : techOrder tlo ≤ techOrder thi) :
    hOrd (solveHuman g (some tlo)).hardest ≤
      hOrd (solveHuman g (some thi)).hardest ∧
    ((solveHuman g (some tlo)).solved = true →
      solveHuman g (some thi) = solveHuman g (some tlo)) := by
  constructor
  · rw [solveHuman_some_unfold g tlo _ rfl, solveHuman_some_unfold g thi _ rfl]
    exact solveLoop_hOrd_mono (techOrder tlo) (techOrder thi) 1000 hle _
  · intro hs
    rw [solveHuman_some_unfold g tlo _ rfl] at hs
    have hs2 : countEmptyCells
        (solveLoop (techOrder tlo) 1000
          ⟨g, buildCandidates g, zeroCounts, none, 0⟩).grid = 0 := by
      simpa using hs
    rw [solveHuman_some_unfold g tlo _ rfl, solveHuman_some_unfold g thi _ rfl,
      solveLoop_solved_eq (techOrder tlo) (techOrder thi) 1000 hle _ hs2]

/-- Witness for the amended C6 on a concrete input. -/
theorem c6_cap_monotone_witness :
    techOrder Technique.NakedSingle ≤ techOrder Technique.HiddenSingle ∧
    (hOrd (solveHuman gBase (some Technique.NakedSingle)).hardest ≤
        hOrd (solveHuman gBase (some Technique.HiddenSingle)).hardest ∧
      ((solveHuman gBase (some Technique.NakedSingle)).solved = true →
        solveHuman gBase (some Technique.HiddenSingle)
          = solveHuman gBase (some Technique.NakedSingle))) :=
  ⟨by decide,
    c6_cap_monotone gBase Technique.NakedSingle Technique.HiddenSingle
      (by decide)⟩

/-- C7: neither the solution counter nor the human solver mutates its
caller's grid: the counter works on `copyAnyGrid g` and hands that working
copy back unchanged (`countRec` restores every cell it writes), the copies
are cell-for-cell the caller's grid, and `solveHuman` reads only the clone
`cloneGrid g` (its state is built from the clone and a fresh candidate
store). -/
theorem c7_no_caller_mutation (g : Grid) (cap : ℕ) :
    (countRec allCells cap (copyAnyGrid g)).2 = copyAnyGrid g ∧
    copyAnyGrid g = g ∧ cloneGrid g = g :=
  ⟨countRec_snd allCells cap (copyAnyGrid g), rfl, rfl⟩


/-! The backtracking fill: basic facts, postconditions and completeness. -/

theorem firstEmpty_none (g : Grid) (h : firstEmpty g = none) : gridFull g := by
  intro r c
  have h2 := List.find?_eq_none.1 h (r, c) (mem_allCells (r, c))
  simpa using h2

theorem firstEmpty_some (g : Grid) (r c : Fin 9)
    (h : firstEmpty g = some (r, c)) : g r c = 0 := by
  have h2 := List.find?_some h
  simpa using h2

theorem emptyCount_update_lt (g : Grid) (r c : Fin 9) (n : ℕ)
    (h0 : g r c = 0) (hn : n ≠ 0) :
    emptyCount (update g r c n) < emptyCount g := by
  apply Finset.card_lt_card
  have hsub : ((Finset.univ : Finset Cell).filter
        fun p => update g r c n p.1 p.2 = 0) ⊆
      ((Finset.univ : Finset Cell).filter fun p => g p.1 p.2 = 0) := by
    intro p hp
    obtain ⟨_, hp2⟩ := Finset.mem_filter.1 hp
    by_cases hpe : p = ((r, c) : Cell)
    · exfalso
      apply hn
      rw [hpe] at hp2
      simpa [update_same] using hp2
    · refine Finset.mem_filter.2 ⟨Finset.mem_univ _, ?_⟩
      rw [← update_ne g r c n p hpe]
      exact hp2
  rw [Finset.ssubset_iff_of_subset hsub]
  refine ⟨(r, c), Finset.mem_filter.2 ⟨Finset.mem_univ _, h0⟩, ?_⟩
  intro hmem
  apply hn
  simpa [update_same] using (Finset.mem_filter.1 hmem).2

theorem countRec_full (cells : List Cell) (cap : ℕ) (g : Grid)
    (h : gridFull g) : countRec cells cap g = (1, g) := by
  induction cells with
  | nil => rfl
  | cons p rest ih =>
    obtain ⟨r, c⟩ := p
    rw [countRec, if_pos (h r c)]
    exact ih

theorem countSolutions_full (g : Grid) (h : gridFull g) :
    countSolutions g 2 = 1 := by
  unfold countSolutions
  rw [countRec_full allCells 2 (copyAnyGrid g) h]

theorem countEmpty_zero_of_full (g : Grid) (h : gridFull g) :
    countEmptyCells g = 0 := by
  have h2 : (allCells.filter fun p => g p.1 p.2 == 0) = [] :=
    List.filter_eq_nil.2 fun p _ => by simpa using h p.1 p.2
  simp [countEmptyCells, h2]

theorem solveLoop_noop (m fuel : ℕ) (st : SolveState)
    (h : countEmptyCells st.grid = 0) : solveLoop m fuel st = st := by
  cases fuel with
  | zero => rfl
  | succ fuel => rw [solveLoop, if_pos h]

theorem solveHuman_full (g : Grid) (t : Option Technique) (h : gridFull g) :
    (solveHuman g t).solved = true := by
  have h0 : countEmptyCells g = 0 := countEmpty_zero_of_full g h
  cases t with
  | none =>
    rw [solveHuman_none_unfold g _ rfl]
    show (countEmptyCells (solveLoop 999 1000
      ⟨g, buildCandidates g, zeroCounts, none, 0⟩).grid == 0) = true
    rw [solveLoop_noop 999 1000 _ h0]
    simpa using h0
  | some tc =>
    rw [solveHuman_some_unfold g tc _ rfl]
    show (countEmptyCells (solveLoop (techOrder tc) 1000
      ⟨g, buildCandidates g, zeroCounts, none, 0⟩).grid == 0) = true
    rw [solveLoop_noop _ 1000 _ h0]
    simpa using h0

theorem keepZeros_id (s : List Char) : keepZeros s = s := by
  have h : ∀ ch : Char, (if ch = Char.ofNat 48 then Char.ofNat 48 else ch) = ch := by
    intro ch
    by_cases hc : ch = Char.ofNat 48
    · rw [if_pos hc, hc]
    · rw [if_neg hc]
  simp [keepZeros, h]

theorem fillTry_post (deeper : ℕ → Grid → Option Grid × ℕ)
    (hdeep : ∀ (k : ℕ) (g g2 : Grid) (k2 : ℕ), inRange g →
      deeper k g = (some g2, k2) → gridFull g2 ∧ inRange g2)
    (r c : Fin 9) (ns : List ℕ) (hns : ∀ n ∈ ns, n ≤ 9) :
    ∀ (k : ℕ) (g g2 : Grid) (k2 : ℕ), inRange g →
      fillTry deeper r c ns k g = (some g2, k2) → gridFull g2 ∧ inRange g2 := by
  induction ns with
  | nil =>
    intro k g g2 k2 _ h
    exact absurd h (by simp [fillTry])
  | cons n ns ih =>
    intro k g g2 k2 hg h
    rw [fillTry] at h
    by_cases hv : isValidForGrid g r c n = true
    · rw [if_pos hv] at h
      cases hd : deeper k (update g r c n) with
      | mk o kd =>
        rw [hd] at h
        cases o with
        | some gg =>
          have h2 : ((some gg : Option Grid), kd) = (some g2, k2) := h
          injection h2 with ha hb
          injection ha with ha
          subst ha
          exact hdeep k (update g r c n) gg kd
            (inRange_update g r c n hg (hns n (List.mem_cons_self n ns))) hd
        | none =>
          have h2 : fillTry deeper r c ns kd g = (some g2, k2) := h
          exact ih (fun u hu => hns u (List.mem_cons_of_mem n hu)) kd g g2 k2 hg h2
    · rw [if_neg hv] at h
      exact ih (fun u hu => hns u (List.mem_cons_of_mem n hu)) k g g2 k2 hg h

theorem fillRec_post (numShuf : ℕ → List ℕ)
    (hn : ∀ j, ∀ n ∈ numShuf j, n ≤ 9) :
    ∀ (fuel k : ℕ) (g g2 : Grid) (k2 : ℕ), inRange g →
      fillRec numShuf fuel k g = (some g2, k2) → gridFull g2 ∧ inRange g2 := by
  intro fuel
  induction fuel with
  | zero =>
    intro k g g2 k2 _ h
    exact absurd h (by simp [fillRec])
  | succ fuel ih =>
    intro k g g2 k2 hg h
    rw [fillRec] at h
    cases hfe : firstEmpty g with
    | none =>
      rw [hfe] at h
      have h2 : ((some g : Option Grid), k) = (some g2, k2) := h
      injection h2 with ha hb
      injection ha with ha
      subst ha
      exact ⟨firstEmpty_none g hfe, hg⟩
    | some p =>
      obtain ⟨r, c⟩ := p
      rw [hfe] at h
      have h2 : fillTry (fillRec numShuf fuel) r c (numShuf k) (k + 1) g
          = (some g2, k2) := h
      exact fillTry_post (fillRec numShuf fuel)
        (fun kk gg gg2 kk2 hgg hh => ih kk gg gg2 kk2 hgg hh)
        r c (numShuf k) (hn k) (k + 1) g g2 k2 hg h2

theorem fillTry_success (numShuf : ℕ → List ℕ) (fuel : ℕ)
    (IH : ∀ (k : ℕ) (g : Grid), emptyCount g < fuel → inRange g →
      (∃ f, isCompletion g f) →
      ∃ g2 k2, fillRec numShuf fuel k g = (some g2, k2))
    (r c : Fin 9) :
    ∀ (ns : List ℕ) (k : ℕ) (g : Grid), g r c = 0 → inRange g →
      emptyCount g < fuel + 1 → (∀ n ∈ ns, n ≤ 9) →
      (∃ f, isCompletion g f ∧ toG f r c ∈ ns) →
      ∃ g2 k2, fillTry (fillRec numShuf fuel) r c ns k g = (some g2, k2) := by
  intro ns
  induction ns with
  | nil =>
    intro k g _ _ _ _ hex
    obtain ⟨f, _, hmem⟩ := hex
    exact absurd hmem (List.not_mem_nil _)
  | cons n ns ih =>
    intro k g h0 hg hec hns hex
    obtain ⟨f, hf, hmem⟩ := hex
    by_cases hv : isValidForGrid g r c n = true
    · cases hd : fillRec numShuf fuel k (update g r c n) with
      | mk o kd =>
        cases o with
        | some gg =>
          refine ⟨gg, kd, ?_⟩
          rw [fillTry, if_pos hv, hd]
        | none =>
          have hne : toG f r c ≠ n := by
            intro he
            have hn1 : 1 ≤ n := he ▸ toG_pos f r c
            have hcomp : isCompletion (update g r c n) f :=
              (completion_update_iff g r c n h0 hn1 f).1 ⟨hf, he⟩
            have hlt : emptyCount (update g r c n) < fuel := by
              have := emptyCount_update_lt g r c n h0 (by omega)
              omega
            obtain ⟨gg2, kk2, hgg⟩ := IH k (update g r c n) hlt
              (inRange_update g r c n hg (hns n (List.mem_cons_self n ns)))
              ⟨f, hcomp⟩
            have : (some gg2, kk2) = ((none : Option Grid), kd) :=
              hgg.symm.trans hd
            injection this with hx hy
            exact Option.noConfusion hx
          have hmem2 : toG f r c ∈ ns := by
            cases List.mem_cons.1 hmem with
            | inl hh => exact absurd hh hne
            | inr hh => exact hh
          obtain ⟨g2, k2, hres⟩ := ih kd g h0 hg hec
            (fun u hu => hns u (List.mem_cons_of_mem n hu)) ⟨f, hf, hmem2⟩
          refine ⟨g2, k2, ?_⟩
          rw [fillTry, if_pos hv, hd]
          exact hres
    · have hne : toG f r c ≠ n := by
        intro he
        have hval := isValid_of_completion g f hf r c h0
        rw [he] at hval
        exact hv hval
      have hmem2 : toG f r c ∈ ns := by
        cases List.mem_cons.1 hmem with
        | inl hh => exact absurd hh hne
        | inr hh => exact hh
      obtain ⟨g2, k2, hres⟩ := ih k g h0 hg hec
        (fun u hu => hns u (List.mem_cons_of_mem n hu)) ⟨f, hf, hmem2⟩
      refine ⟨g2, k2, ?_⟩
      rw [fillTry, if_neg hv]
      exact hres

theorem fillRec_success (numShuf : ℕ → List ℕ)
    (hn : ∀ j, (numShuf j).Perm digits) :
    ∀ (fuel k : ℕ) (g : Grid), emptyCount g < fuel → inRange g →
      (∃ f, isCompletion g f) →
      ∃ g2 k2, fillRec numShuf fuel k g = (some g2, k2) := by
  intro fuel
  induction fuel with
  | zero =>
    intro k g hec _ _
    omega
  | succ fuel ih =>
    intro k g hec hg hex
    obtain ⟨f, hf⟩ := hex
    cases hfe : firstEmpty g with
    | none =>
      refine ⟨g, k, ?_⟩
      rw [fillRec, hfe]
    | some p =>
      obtain ⟨r, c⟩ := p
      have h0 : g r c = 0 := firstEmpty_some g r c hfe
      have hvals : ∀ n ∈ numShuf k, n ≤ 9 := fun n hmem =>
        (digits_bounds n ((hn k).mem_iff.1 hmem)).2
      have hmem : toG f r c ∈ numShuf k := by
        apply (hn k).mem_iff.2
        apply mem_digits_of_bounds
        · exact toG_pos f r c
        · show (f r c).1 + 1 ≤ 9
          have := (f r c).2
          omega
      obtain ⟨g2, k2, hres⟩ := fillTry_success numShuf fuel
        (fun kk gg hlt hrg hexx => ih kk gg hlt hrg hexx)
        r c (numShuf k) (k + 1) g h0 hg hec hvals ⟨f, hf, hmem⟩
      refine ⟨g2, k2, ?_⟩
      rw [fillRec, hfe]
      exact hres


/-! The removal loop preserves its invariant, retry by retry. -/

theorem foldl_preserve {α β : Type} (f : α → β → α) (P : α → Prop)
    (l : List β) (a : α) (h0 : P a) (hstep : ∀ x b, P x → P (f x b)) :
    P (l.foldl f a) := by
  induction l generalizing a with
  | nil => exact h0
  | cons b l ih => exact ih (f a b) (hstep a b h0)

theorem rcStep_inv (cap : Technique) (policy : DifficultyPolicy)
    (diff : Difficulty) (sol : Grid) (st : Grid × ℕ × ℕ) (pos : Cell)
    (h : rcInv cap sol st.1) :
    rcInv cap sol (rcStep cap policy diff st pos).1 := by
  unfold rcStep
  dsimp only
  split_ifs with h1 h2 h3 h4 h5 h6 h7
  · exact h
  · exact h
  · exact h
  · exact h
  · exact h
  · exact h
  · exact h
  · show rcInv cap sol (update st.1 pos.1 pos.2 0)
    refine ⟨?_, ?_, ?_, ?_⟩
    · have hu : hasUniqueSolution (update st.1 pos.1 pos.2 0) = true := by
        simpa using h3
      simpa [hasUniqueSolution] using hu
    · simpa using h5
    · exact inRange_update st.1 pos.1 pos.2 0 h.2.2.1 (by omega)
    · intro rr cc
      by_cases hq : ((rr, cc) : Cell) = (pos.1, pos.2)
      · left
        have hr : rr = pos.1 := congrArg Prod.fst hq
        have hc : cc = pos.2 := congrArg Prod.snd hq
        subst hr
        subst hc
        exact update_same st.1 pos.1 pos.2 0
      · have he : update st.1 pos.1 pos.2 0 rr cc = st.1 rr cc :=
          update_ne st.1 pos.1 pos.2 0 (rr, cc) hq
        rw [he]
        exact h.2.2.2 rr cc

theorem rcRetry_inv (cap : Technique) (policy : DifficultyPolicy)
    (diff : Difficulty) (posShuf : ℕ → List Cell) (sol : Grid)
    (hsol : rcInv cap sol sol) :
    ∀ (fuel retry : ℕ) (best : Best), rcInv cap sol best.grid →
      rcInv cap sol (rcRetry cap policy diff posShuf sol fuel retry best).grid := by
  intro fuel
  induction fuel with
  | zero =>
    intro retry best hb
    exact hb
  | succ fuel ih =>
    intro retry best hb
    rw [rcRetry]
    have hatt : rcInv cap sol
        ((posShuf retry).foldl (rcStep cap policy diff)
          (copyAnyGrid sol, 0, 0)).1 :=
      foldl_preserve (rcStep cap policy diff) (fun x => rcInv cap sol x.1) _ _
        hsol (fun x b hx => rcStep_inv cap policy diff sol x b hx)
    split
    · split
      · exact hatt
      · exact hb
    · apply ih
      split
      · exact hatt
      · exact hb

theorem removeCells_inv (diff : Difficulty) (posShuf : ℕ → List Cell)
    (sol : Grid) (hfull : gridFull sol) (hrange : inRange sol) :
    rcInv (techniqueCapFor diff) sol (removeCells diff posShuf sol) := by
  have hsol : rcInv (techniqueCapFor diff) sol sol :=
    ⟨countSolutions_full sol hfull, solveHuman_full sol _ hfull, hrange,
      fun r c => Or.inr rfl⟩
  unfold removeCells
  exact rcRetry_inv _ _ _ posShuf sol hsol _ 0 _ hsol

/-- `generatePuzzle`, unfolded against the result of the fill. -/
theorem generatePuzzle_eq (d : Difficulty) (numShuf : ℕ → List ℕ)
    (posShuf : ℕ → List Cell) (g2 : Grid)
    (hfill : ((fillRec numShuf 82 0 emptyGrid).1).getD emptyGrid = g2) :
    generatePuzzle d numShuf posShuf =
      ⟨keepZeros (gridToString (removeCells d posShuf g2)),
        gridToString g2, d⟩ := by
  subst hfill
  rfl


/-! Rating bounds and string positions, and the three generator claims. -/

theorem techOrder_le_nine (t : Technique) : techOrder t ≤ 9 := by
  cases t <;> decide

/-- If the capped run already solves the grid, the uncapped run is the
same run. -/
theorem solveHuman_none_eq_some (g : Grid) (t : Technique)
    (hs : (solveHuman g (some t)).solved = true) :
    solveHuman g none = solveHuman g (some t) := by
  rw [solveHuman_some_unfold g t _ rfl] at hs
  have hs2 : countEmptyCells (solveLoop (techOrder t) 1000
      ⟨g, buildCandidates g, zeroCounts, none, 0⟩).grid = 0 := by
    simpa using hs
  rw [solveHuman_none_unfold g _ rfl, solveHuman_some_unfold g t _ rfl,
    solveLoop_solved_eq (techOrder t) 999 1000
      (le_trans (techOrder_le_nine t) (by omega)) _ hs2]

/-- The hardest technique of a capped run never exceeds the cap. -/
theorem solveHuman_hardest_le (g : Grid) (t : Technique) :
    hOrd (solveHuman g (some t)).hardest ≤ techOrder t := by
  rw [solveHuman_some_unfold g t _ rfl]
  exact solveLoop_cap (techOrder t) 1000 _ (Nat.zero_le _)

/-- A report whose hardest rank is at most HiddenSingle is rated Easy. -/
theorem band_easy_of_le (rpt : SolveReport) (hh : hOrd rpt.hardest ≤ 2) :
    (toRating rpt).band = Difficulty.Easy := by
  cases hr : rpt.hardest with
  | none => simp [toRating, hr]
  | some t =>
    rw [hr] at hh
    have hb : techBand t = Difficulty.Easy := by
      cases t <;> simp [hOrd, techOrder] at hh <;> rfl
    simp [toRating, hr, hb]

/-- The character of the board string at a raw position. -/
theorem gridToString_get (g : Grid) (i : ℕ) (hi : i < 81) :
    (gridToString g).get? i =
      some (Nat.digitChar (g ⟨i / 9, by omega⟩ ⟨i % 9, by omega⟩)) := by
  unfold gridToString
  rw [List.get?_map]
  have h2 := allCells_get ⟨i / 9, by omega⟩ ⟨i % 9, by omega⟩
  have h3 : allCells.get? (9 * (i / 9) + i % 9) =
      some ((⟨i / 9, by omega⟩ : Fin 9), (⟨i % 9, by omega⟩ : Fin 9)) := h2
  rw [Nat.div_add_mod i 9] at h3
  rw [h3]
  rfl

/-- The shared skeleton of the generator claims: the fill succeeds, its
result is a full in-range grid, and the removal loop's result satisfies
the removal invariant for that solution grid. -/
theorem generate_core (d : Difficulty) (numShuf : ℕ → List ℕ)
    (posShuf : ℕ → List Cell) (hn : ∀ j, (numShuf j).Perm digits) :
    ∃ g2 : Grid,
      ((fillRec numShuf 82 0 emptyGrid).1).getD emptyGrid = g2 ∧
      gridFull g2 ∧ inRange g2 ∧
      rcInv (techniqueCapFor d) g2 (removeCells d posShuf g2) := by
  obtain ⟨g2, k2, hfill⟩ := fillRec_success numShuf hn 82 0 emptyGrid
    (by decide) (fun r c => Nat.zero_le 9) ⟨fBase, by decide⟩
  obtain ⟨hfull, hrange⟩ := fillRec_post numShuf
    (fun j n hmem => (digits_bounds n ((hn j).mem_iff.1 hmem)).2)
    82 0 emptyGrid g2 k2 (fun r c => Nat.zero_le 9) hfill
  refine ⟨g2, ?_, hfull, hrange, removeCells_inv d posShuf g2 hfull hrange⟩
  rw [hfill]
  rfl

/-- C1: for every target difficulty and every outcome of the random
shuffles (each digit shuffle a permutation of 1..9, the position shuffles
arbitrary), the board of the puzzle returned by generatePuzzle admits
exactly one completion: countSolutions on the board grid with cap 2
returns exactly 1.  Uniqueness holds of the initial full grid and is
preserved by every accepted removal (check 1) and by every best-grid
update. -/
theorem c1_generate_unique (d : Difficulty) (numShuf : ℕ → List ℕ)
    (posShuf : ℕ → List Cell) (hn : ∀ j, (numShuf j).Perm digits) :
    countSolutions
      (stringToGrid (generatePuzzle d numShuf posShuf).board) 2 = 1 := by
  obtain ⟨g2, hgd, hfull, hrange, hinv⟩ := generate_core d numShuf posShuf hn
  rw [generatePuzzle_eq d numShuf posShuf g2 hgd]
  dsimp only
  rw [keepZeros_id, stringToGrid_gridToString _ hinv.2.2.1]
  exact hinv.1

/-- Witness for C1 with the identity digit shuffles and empty position
lists. -/
theorem c1_generate_unique_witness :
    (∀ j : ℕ, ((fun _ : ℕ => digits) j).Perm digits) ∧
    countSolutions (stringToGrid
      (generatePuzzle Difficulty.Easy (fun _ : ℕ => digits)
        (fun _ : ℕ => ([] : List Cell))).board) 2 = 1 :=
  ⟨fun _ => List.Perm.refl digits,
    c1_generate_unique Difficulty.Easy (fun _ : ℕ => digits) (fun _ => [])
      (fun _ => List.Perm.refl digits)⟩

/-- C2: for every outcome of the random shuffles, a puzzle generated at
Easy difficulty is rated band Easy by the uncapped
solveHuman-plus-toRating pipeline: every kept grid stays solvable under
the HiddenSingle cap, the uncapped run of such a grid is the capped run
itself, and its hardest technique is at most HiddenSingle. -/
theorem c2_easy_band (numShuf : ℕ → List ℕ) (posShuf : ℕ → List Cell)
    (hn : ∀ j, (numShuf j).Perm digits) :
    (toRating (solveHuman (stringToGrid
        (generatePuzzle Difficulty.Easy numShuf posShuf).board) none)).band
      = Difficulty.Easy := by
  obtain ⟨g2, hgd, hfull, hrange, hinv⟩ :=
    generate_core Difficulty.Easy numShuf posShuf hn
  rw [generatePuzzle_eq Difficulty.Easy numShuf posShuf g2 hgd]
  dsimp only
  rw [keepZeros_id, stringToGrid_gridToString _ hinv.2.2.1]
  rw [solveHuman_none_eq_some _ _ hinv.2.1]
  exact band_easy_of_le _ (solveHuman_hardest_le _ _)

/-- Witness for C2 with the identity digit shuffles and empty position
lists. -/
theorem c2_easy_band_witness :
    (∀ j : ℕ, ((fun _ : ℕ => digits) j).Perm digits) ∧
    (toRating (solveHuman (stringToGrid
        (generatePuzzle Difficulty.Easy (fun _ : ℕ => digits)
          (fun _ : ℕ => ([] : List Cell))).board) none)).band
      = Difficulty.Easy :=
  ⟨fun _ => List.Perm.refl digits,
    c2_easy_band (fun _ : ℕ => digits) (fun _ => [])
      (fun _ => List.Perm.refl digits)⟩

/-- C3: given-consistency: at every position of the 81-character strings,
the board character equals the solution character or is '0' (the removal
loop only clears cells of a copy of the solution or restores the original
values). -/
theorem c3_given_consistency (d : Difficulty) (numShuf : ℕ → List ℕ)
    (posShuf : ℕ → List Cell) (hn : ∀ j, (numShuf j).Perm digits)
    (i : ℕ) (hi : i < 81) :
    (generatePuzzle d numShuf posShuf).board.get? i
        = (generatePuzzle d numShuf posShuf).solution.get? i ∨
      (generatePuzzle d numShuf posShuf).board.get? i
        = some (Char.ofNat 48) := by
  obtain ⟨g2, hgd, hfull, hrange, hinv⟩ := generate_core d numShuf posShuf hn
  rw [generatePuzzle_eq d numShuf posShuf g2 hgd]
  dsimp only
  rw [keepZeros_id]
  rw [gridToString_get _ i hi, gridToString_get _ i hi]
  rcases hinv.2.2.2 ⟨i / 9, by omega⟩ ⟨i % 9, by omega⟩ with hz | he
  · right
    rw [hz]
    decide
  · left
    rw [he]

/-- Witness for C3 at position 0 with the identity digit shuffles. -/
theorem c3_given_consistency_witness :
    ((∀ j : ℕ, ((fun _ : ℕ => digits) j).Perm digits) ∧ 0 < 81) ∧
    ((generatePuzzle Difficulty.Easy (fun _ : ℕ => digits)
        (fun _ : ℕ => ([] : List Cell))).board.get? 0
      = (generatePuzzle Difficulty.Easy (fun _ : ℕ => digits)
        (fun _ : ℕ => ([] : List Cell))).solution.get? 0 ∨
     (generatePuzzle Difficulty.Easy (fun _ : ℕ => digits)
        (fun _ : ℕ => ([] : List Cell))).board.get? 0 = some (Char.ofNat 48)) :=
  ⟨⟨fun _ => List.Perm.refl digits, by decide⟩,
    c3_given_consistency Difficulty.Easy (fun _ : ℕ => digits) (fun _ => [])
      (fun _ => List.Perm.refl digits) 0 (by decide)⟩

end Sudokle
